import Mathlib

/-!
# Delta pre-install command, installer entry point and stdio/socket bridge

A verification development over a shallow embedding of

* `deploy/installer/delta_preinstall.cc` (`DeltaPreinstallCommand::ParseParameters`,
  `DeltaPreinstallCommand::Run`, `DeltaPreinstallCommand::SendApkToPackageManager`),
* `deploy/installer/main.cc` (`GetStringUsage`, `ParseParameters`, `Fail`, `main`), and
* `deploy/installer/tests/bash_bridge.cc` (`writeInt`, `readInt`, `main`).

External collaborators (the package manager, the `Executor`, the patch engine,
the kernel's `read`/`poll`) are an environment: every call made to them is
recorded, in order, in a log, and what they answer is a parameter of the model.
Tracing (`Phase`, `Metric`) has no effect on what is modelled and is left out.
The command line of the installer is a list of texts without NUL.
Definitions come first, for all programs; the lemmas and theorems follow.
-/

namespace deploy

/-! ## Data model -/

/-- Modelled from the spec: the `proto::PatchInstruction` message of `deploy.proto`
(the declaration is not part of the sources): the on-device absolute path of one
APK, the list of edit operations and the size of the new file. -/
structure PatchInstruction where
  src_absolute_path : String
  patches : List Nat
  dst_filesize : Int
  deriving DecidableEq, Repr

/-- Modelled from the spec: the `proto::DeltaPreinstallRequest` message of
`deploy.proto`: the application's identity, the inherit flag and the ordered
patch instructions. -/
structure DeltaPreinstallRequest where
  package_name : String
  inherit : Bool
  patchinstructions : List PatchInstruction
  deriving DecidableEq, Repr

/-- Modelled from the spec: the status enumeration of `proto::DeltaPreinstallResponse`. -/
inductive DeltaStatus where
  | OK
  | ERROR
  deriving DecidableEq, Repr

/-- Modelled from the spec: the `proto::DeltaPreinstallResponse` message; a field
that no setter has touched is `none`. -/
structure DeltaPreinstallResponse where
  status : Option DeltaStatus := none
  session_id : Option String := none
  deriving DecidableEq, Repr

/-- Modelled from the spec: the status enumeration of `proto::InstallerResponse`. -/
inductive InstallerStatus where
  | OK
  | ERROR
  | ERROR_PARAMETER
  | ERROR_CMD
  | ERROR_WRONG_VERSION
  deriving DecidableEq, Repr

/-- Modelled from the spec: the `proto::InstallerResponse` message held by the
`Workspace`; `deltapreinstall_response` is the sub-message installed by
`set_allocated_deltapreinstall_response`. -/
structure InstallerResponse where
  status : Option InstallerStatus := none
  deltapreinstall_response : Option DeltaPreinstallResponse := none
  deriving DecidableEq, Repr

/-- What `waitpid` stores in `status`: the child exited with a code, or was
ended by a signal. -/
inductive WaitStatus where
  | exited (code : Nat)
  | signaled (sig : Nat)
  deriving DecidableEq, Repr

/-- The `WIFEXITED` test. -/
def WIFEXITED : WaitStatus → Bool
  | .exited _ => true
  | .signaled _ => false

/-- The `WEXITSTATUS` value (meaningful when `WIFEXITED` holds). -/
def WEXITSTATUS : WaitStatus → Nat
  | .exited c => c
  | .signaled _ => 0

/-- One observable action of the command, in the order the code performs them. -/
inductive Event where
  | set_allocated_deltapreinstall_response
  | CreateInstallSession (options : List String)
  | ErrEvent (message : String)
  | set_status (status : DeltaStatus)
  | set_session_id (id : String)
  | ForkAndExec (program : String) (parameters : List String)
  | ApplyPatchToFD (patch : PatchInstruction)
  | close
  | waitpid
  deriving DecidableEq, Repr

/-- The answers of the outside world. `CreateInstallSession options` is the result
and the `output` string of `CmdCommand::CreateInstallSession`; `waitpid log` is the
wait status of the child reaped after the actions in `log`. -/
structure Env where
  CreateInstallSession : List String → Bool × String
  waitpid : List Event → WaitStatus

/-- The `Workspace` as far as the command touches it: the outgoing response and
the log of actions performed so far. -/
structure World where
  response : InstallerResponse := {}
  log : List Event := []
  deriving DecidableEq, Repr

/-- What an action does to the response: the three setters used by `Run` change
it, calls to the outside world leave it alone. The setters reached through the
`response` pointer of `Run` act on the sub-message owned by the workspace response. -/
def Event.effect : Event → InstallerResponse → InstallerResponse
  | .set_allocated_deltapreinstall_response, r => { r with deltapreinstall_response := some {} }
  | .set_status st, r =>
    { r with deltapreinstall_response :=
        r.deltapreinstall_response.map fun d => { d with status := some st } }
  | .set_session_id id, r =>
    { r with deltapreinstall_response :=
        r.deltapreinstall_response.map fun d => { d with session_id := some id } }
  | _, r => r

/-- Perform one action: apply its effect on the response and append it to the log. -/
def World.perform (w : World) (e : Event) : World :=
  { response := e.effect w.response, log := w.log ++ [e] }

/-! ## `std::string` helpers -/

/-- The value `std::string::npos` on a 64-bit `size_t`. -/
def npos : Nat := 2 ^ 64 - 1

/-- Index of the last occurrence of `c`, if any. -/
def rfind? : (s : List Char) → Char → Option (Fin s.length)
  | [], _ => none
  | x :: xs, c =>
    match rfind? xs c with
    | some i => some i.succ
    | none => if x = c then some ⟨0, Nat.succ_pos _⟩ else none

/-- The call `s.rfind(c)`: position of the last occurrence, `npos` when there is none. -/
def rfind (s : List Char) (c : Char) : Nat :=
  match rfind? s c with
  | some i => i.val
  | none => npos

/-- Unsigned `size_t` addition. -/
def size_t_add (a b : Nat) : Nat := (a + b) % 2 ^ 64

/-- The call `s.substr(pos)`, which throws `std::out_of_range` when `pos > s.size()`:
the embedding asks for the proof that it does not. -/
def substr (s : List Char) (pos : Nat) (_h : pos ≤ s.length) : List Char :=
  s.drop pos

/-- Modelled from the spec: the `to_string` helper of `deploy/common/utils.h` (not
part of the sources), the decimal rendering of an integer. -/
def to_string (n : Int) : String := toString n

/-! ## `DeltaPreinstallCommand` -/

/-- The name under which the file is written: `apk.substr(apk.rfind("/") + 1)`.
The position never lies beyond the end of `apk`, so `substr` does not throw. -/
def apkName (apk : String) : String :=
  String.mk (substr apk.data (size_t_add (rfind apk.data '/') 1) (by
    unfold size_t_add rfind
    cases rfind? apk.data '/' with
    | none => simp [npos]
    | some i =>
      have h1 := i.isLt
      have h2 : (i.val + 1) % 2 ^ 64 ≤ i.val + 1 := Nat.mod_le _ _
      simp only
      omega))

/-- The `parameters` vector built by `SendApkToPackageManager`. -/
def writeParameters (patch : PatchInstruction) (session_id : String) : List String :=
  let parameters : List String := []
  let parameters := parameters ++ ["package"]
  let parameters := parameters ++ ["install-write"]
  let parameters := parameters ++ ["-S"]
  let parameters := parameters ++ [to_string patch.dst_filesize]
  let parameters := parameters ++ [session_id]
  let apk := patch.src_absolute_path
  parameters ++ [apkName apk]

/-- `DeltaPreinstallCommand::SendApkToPackageManager`: start `cmd package
install-write ...`, stream the patched file into its stdin, close, reap the child;
the result is whether the child exited with code 0. -/
def SendApkToPackageManager (env : Env) (patch : PatchInstruction) (session_id : String)
    (w : World) : Bool × World :=
  let parameters := writeParameters patch session_id
  let w := w.perform (Event.ForkAndExec "cmd" parameters)
  let w := w.perform (Event.ApplyPatchToFD patch)
  let w := w.perform Event.close
  let status := env.waitpid w.log
  let w := w.perform Event.waitpid
  (WIFEXITED status && (WEXITSTATUS status == 0), w)

/-- The test that makes the loop of `Run` skip an instruction. -/
def skipped (request_ : DeltaPreinstallRequest) (patch : PatchInstruction) : Bool :=
  request_.inherit && patch.patches.length == 0

/-- One iteration of the `for` loop of `Run`. -/
def RunLoopBody (env : Env) (request_ : DeltaPreinstallRequest) (session_id : String)
    (w : World) (patch : PatchInstruction) : World :=
  if skipped request_ patch then
    w
  else
    (SendApkToPackageManager env patch session_id w).2

/-- The `for` loop of `Run` over the patch instructions, in order. -/
def RunLoop (env : Env) (request_ : DeltaPreinstallRequest) (session_id : String) :
    List PatchInstruction → World → World
  | [], w => w
  | patch :: rest, w => RunLoop env request_ session_id rest (RunLoopBody env request_ session_id w patch)

/-- The `options` vector built by `Run`. -/
def sessionOptions (request_ : DeltaPreinstallRequest) : List String :=
  let options : List String := []
  let options := options ++ ["-t"]
  let options := options ++ ["-r"]
  let options := options ++ ["--dont-kill"]
  if request_.inherit then
    (options ++ ["-p"]) ++ [request_.package_name]
  else
    options

/-- `DeltaPreinstallCommand::Run`. -/
def Run (env : Env) (request_ : DeltaPreinstallRequest) (w : World) : World :=
  let w := w.perform Event.set_allocated_deltapreinstall_response
  let options := sessionOptions request_
  let created := env.CreateInstallSession options
  let w := w.perform (Event.CreateInstallSession options)
  let output := created.2
  if !created.1 then
    let w := w.perform (Event.ErrEvent output)
    let w := w.perform (Event.set_status DeltaStatus.ERROR)
    w
  else
    let session_id := output
    let w := w.perform (Event.set_session_id session_id)
    let w := RunLoop env request_ session_id request_.patchinstructions w
    w.perform (Event.set_status DeltaStatus.OK)

/-! ## Observations on a log -/

/-- The write-subprocess invocations of a log: program and argument vector of
every `ForkAndExec`, in order. -/
def writeCalls : List Event → List (String × List String)
  | [] => []
  | Event.ForkAndExec p a :: es => (p, a) :: writeCalls es
  | _ :: es => writeCalls es

/-- The session-open calls of a log: the option list of every
`CreateInstallSession`, in order. -/
def sessionOpens : List Event → List (List String)
  | [] => []
  | Event.CreateInstallSession o :: es => o :: sessionOpens es
  | _ :: es => sessionOpens es

/-- The session id carried by a response, when one has been set. -/
def InstallerResponse.sessionId (r : InstallerResponse) : Option String :=
  r.deltapreinstall_response.bind fun d => d.session_id

/-- The delta-install status carried by a response, when one has been set. -/
def InstallerResponse.deltaStatus (r : InstallerResponse) : Option DeltaStatus :=
  r.deltapreinstall_response.bind fun d => d.status

/-- The response after the actions `evs` have been performed from response `r`. -/
def responseAfter (r : InstallerResponse) (evs : List Event) : InstallerResponse :=
  evs.foldl (fun r e => e.effect r) r

/-- The actions one loop iteration performs for `patch`. -/
def patchEvents (request_ : DeltaPreinstallRequest) (session_id : String)
    (patch : PatchInstruction) : List Event :=
  if skipped request_ patch then []
  else [Event.ForkAndExec "cmd" (writeParameters patch session_id),
        Event.ApplyPatchToFD patch, Event.close, Event.waitpid]

/-- The actions the whole loop performs for a list of instructions. -/
def loopEvents (request_ : DeltaPreinstallRequest) (session_id : String) :
    List PatchInstruction → List Event
  | [] => []
  | patch :: rest => patchEvents request_ session_id patch ++ loopEvents request_ session_id rest

end deploy

/-! # The stdio/socket bridge (`bash_bridge.cc`) -/

namespace bash_bridge

/-- One byte. -/
abbrev Byte := Fin 256

/-- A descriptor open for reading: the bytes it will still deliver, and `cuts`, the
environment's choice of how many bytes each coming `read` hands over at most. -/
structure InStream where
  data : List Byte
  cuts : List Nat
  deriving DecidableEq, Repr

/-- The call `read(fd, buf, count)` on a blocking descriptor without errors: it
returns the bytes read and the descriptor afterwards. With data pending and
`count > 0` it returns at least one byte and at most `count`, how many being the
environment's choice; it returns no byte only at end of stream. -/
def read (fd : InStream) (count : Nat) : List Byte × InStream :=
  let limit := match fd.cuts with
    | [] => count
    | c :: _ => max c 1
  let r := min (min count fd.data.length) limit
  (fd.data.take r, { data := fd.data.drop r, cuts := fd.cuts.tail })

/-- The call `write(fd, buf, count)` on a blocking descriptor without errors: the
first `count` bytes of `buf` are appended, all of them, to what `fd` has received. -/
def write (fd : List Byte) (buf : List Byte) (count : Nat) : List Byte :=
  fd ++ buf.take count

/-- The value of a 32-bit two's complement `int` with the given bit pattern. -/
def int32 (n : Int) : Int := (n + 2 ^ 31) % 2 ^ 32 - 2 ^ 31

/-- The byte `x & 0xff` of an `int`. -/
def lowByte (x : Int) : Byte := ⟨(x % 256).toNat, by omega⟩

/-- The `buffer` filled by `writeInt`: `(value >> 24) & 0xff`, `(value >> 16) & 0xff`,
`(value >> 8) & 0xff`, `value & 0xff`; the arithmetic shift `value >> k` of an `int` is
the floor of `value / 2 ^ k`. -/
def writeIntBuffer (value : Int) : List Byte :=
  [lowByte (value / 2 ^ 24), lowByte (value / 2 ^ 16), lowByte (value / 2 ^ 8), lowByte value]

/-- The function `writeInt`: `write(fd, &buffer, 4)` of the four bytes of `value`. -/
def writeInt (fd : List Byte) (value : Int) : List Byte :=
  write fd (writeIntBuffer value) 4

/-- The loop `while (r < 4) r += read(fd, buffer + r, 4 - r)` of `readInt`; `buffer`
holds the `r` bytes read so far. At end of stream `read` returns 0 for ever and the
loop does not end: the result is `none`. -/
def readIntLoop : Nat → InStream → List Byte → Option (List Byte × InStream)
  | 0, _, _ => none
  | fuel + 1, fd, buffer =>
    if buffer.length < 4 then
      let got := read fd (4 - buffer.length)
      readIntLoop fuel got.2 (buffer ++ got.1)
    else
      some (buffer, fd)

/-- The function `readInt`: four bytes, most significant first, as an `int`. Each
`read` of the loop returns at least one byte or the stream is at its end, so five
rounds decide whether the loop ends. -/
def readInt (fd : InStream) : Option (Int × InStream) :=
  match readIntLoop 5 fd [] with
  | some ([b0, b1, b2, b3], fd) =>
    some (int32 ((b0.val <<< 24 ||| b1.val <<< 16 ||| b2.val <<< 8 ||| b3.val : Nat) : Int), fd)
  | _ => none

/-- How `main` ends, as far as the run is followed. -/
inductive Outcome where
  | returned (code : Int)
  | polling
  | stuck
  | fault
  deriving DecidableEq, Repr

/-- What one call of `poll(fds, 2, -1)` reports: its return value and whether
`POLLIN` is set in `fds[0].revents` (stdin) and in `fds[1].revents` (socket). -/
structure PollResult where
  ret : Int
  stdin_POLLIN : Bool
  sock_POLLIN : Bool
  deriving DecidableEq, Repr

/-- The variables of `main` and the four byte streams it works on: `sent` is what has
been written to the socket, `stdout` what has been written to standard output. Writes
are blocking and complete. -/
structure Bridge where
  stdin : InStream
  sock : InStream
  sent : List Byte
  stdout : List Byte
  buffer : List Byte
  chunk : Int
  deriving DecidableEq, Repr

/-- The loop of `main` building `cmd` from `argv[i]`, `i = 2 .. argc - 1`. -/
def cmdLoop : Nat → List (List Byte) → List Byte → List Byte
  | _, [], cmd => cmd
  | i, arg :: rest, cmd =>
    let cmd := if i > 2 then cmd ++ [32] else cmd
    cmdLoop (i + 1) rest (cmd ++ arg)

/-- The stdin branch: `r = read(STDIN_FILENO, buffer, 8192); write(sockfd, buffer, r)`. -/
def serviceStdin (st : Bridge) : Bridge :=
  let got := read st.stdin 8192
  let r := got.1.length
  let buffer := got.1 ++ st.buffer.drop r
  { st with stdin := got.2, buffer := buffer, sent := write st.sent buffer r }

/-- The first half of the socket branch: with no chunk in progress read the next
length; a zero length is followed by the exit code, which `main` returns. The result is
`some` outcome when `main` ends here. -/
def readHeader (st : Bridge) : Option Outcome × Bridge :=
  if st.chunk == 0 then
    match readInt st.sock with
    | none => (some Outcome.stuck, st)
    | some (chunk, fd) =>
      let st := { st with chunk := chunk, sock := fd }
      if chunk == 0 then
        match readInt st.sock with
        | none => (some Outcome.stuck, st)
        | some (ret, fd) => (some (Outcome.returned ret), { st with sock := fd })
      else
        (none, st)
  else
    (none, st)

/-- The second half of the socket branch:
`r = read(sockfd, buffer, chunk > 8192 ? 8192 : chunk); write(STDOUT_FILENO, buffer, r);
chunk -= r`. A negative count is converted to a `size_t` above `SSIZE_MAX`: the kernel
refuses such a `read` (it returns -1, `EFAULT`, and takes nothing from the socket), the
`write` of `r = -1` bytes is refused in the same way, `chunk -= r` adds one, and the
loop goes on. -/
def forwardChunk (st : Bridge) : Option Outcome × Bridge :=
  let count := if st.chunk > 8192 then 8192 else st.chunk
  if count < 0 then
    let r : Int := -1
    (none, { st with chunk := st.chunk - r })
  else
    let got := read st.sock count.toNat
    let r := got.1.length
    let buffer := got.1 ++ st.buffer.drop r
    (none, { st with sock := got.2, buffer := buffer, stdout := write st.stdout buffer r,
                     chunk := st.chunk - r })

/-- The socket branch of the loop. -/
def serviceSocket (st : Bridge) : Option Outcome × Bridge :=
  match readHeader st with
  | (some o, st) => (some o, st)
  | (none, st) => forwardChunk st

/-- The loop `while (poll(fds, 2, -1) > 0)`, one round per reported poll result; when
`poll` reports nothing more the process stays blocked in it. After the loop `main`
closes the socket and returns 255. -/
def mainLoop : List PollResult → Bridge → Outcome × Bridge
  | [], st => (Outcome.polling, st)
  | p :: polls, st =>
    if p.ret > 0 then
      let st := if p.stdin_POLLIN then serviceStdin st else st
      if p.sock_POLLIN then
        match serviceSocket st with
        | (some o, st) => (o, st)
        | (none, st) => mainLoop polls st
      else
        mainLoop polls st
    else
      (Outcome.returned 255, st)

/-- The command line sent by `main`: built from `argv[2 ..]`. -/
def commandLine (argv : List (List Byte)) : List Byte :=
  cmdLoop 2 (argv.drop 2) []

/-- The function `main` of the bridge. `argv[1]` is read without a check, so fewer than
two arguments is a fault; `connect_ok` is whether `connect` returned 0; `buffer` is the
uninitialised content of `char buffer[8192]`. -/
def main (argv : List (List Byte)) (connect_ok : Bool) (stdin sock : InStream)
    (buffer : List Byte) (polls : List PollResult) : Outcome × Bridge :=
  let st : Bridge :=
    { stdin := stdin, sock := sock, sent := [], stdout := [], buffer := buffer, chunk := 0 }
  if argv.length < 2 then
    (Outcome.fault, st)
  else if !connect_ok then
    (Outcome.returned 1, st)
  else
    let cmd := commandLine argv
    let size := int32 cmd.length
    let st := { st with sent := writeInt st.sent size }
    let st := { st with sent := write st.sent cmd cmd.length }
    mainLoop polls st

/-- The socket traffic of a remote end: each payload as a frame (its length, then its
bytes), a zero length, the exit code; integers as `writeInt` lays them out. -/
def wire (payloads : List (List Byte)) (exitCode : Int) : List Byte :=
  match payloads with
  | [] => writeIntBuffer 0 ++ writeIntBuffer exitCode
  | p :: rest => writeIntBuffer p.length ++ p ++ wire rest exitCode

/-- Number of poll results that report the socket readable. -/
def sockReady : List PollResult → Nat
  | [] => 0
  | p :: polls => (if p.sock_POLLIN then 1 else 0) + sockReady polls

/-- Number of poll results that report stdin readable. -/
def stdinReady : List PollResult → Nat
  | [] => 0
  | p :: polls => (if p.stdin_POLLIN then 1 else 0) + stdinReady polls

end bash_bridge

/-! # The installer's entry point (`main.cc`) and `DeltaPreinstallCommand::ParseParameters` -/

namespace deploy

/-- The struct `Parameters` of `main.cc`; a null `const char*` is `none`. -/
structure Parameters where
  binary_name : Option String := none
  command_name : Option String := none
  cmd_path : Option String := none
  pm_path : Option String := none
  version : Option String := none
  shell : Option String := none
  shell_arg : Option String := none
  root_directory : Option String := none
  consumed : Nat := 0
  deriving DecidableEq, Repr

/-- The function `GetStringUsage`; `std::endl` is a line feed. -/
def GetStringUsage (invoked_path : String) : String :=
  "Usage:" ++ "\n" ++
  invoked_path ++ " [env parameters] command [command_parameters]" ++ "\n" ++
  "\n" ++
  "Environment parameters available:" ++ "\n" ++
  "  -cmd=X: Define path to cmd executable (to mock android)." ++ "\n" ++
  "  -pm=X : Define path to package manager executable (to mock android)." ++ "\n" ++
  "  -shell=X : Define path to a shell-like executable (to mock android)." ++ "\n" ++
  "  -shell-arg=X : An argument to the custom shell before the command (to mock android)."
    ++ "\n" ++
  "  -root=X : The root directory to use (to mock android)." ++ "\n" ++
  "  -version=X : Program will fail if version != X." ++ "\n" ++
  "Commands available:" ++ "\n" ++
  "   dump : Extract CDs and Signatures for a given applicationID." ++ "\n" ++
  "   swap : Perform a hot-swap via JVMTI." ++ "\n" ++
  "\n"

/-- One call of `strtok` with the delimiter `=`, on the text at the saved position:
leading delimiters are skipped; at the end of the text there is no token; otherwise
the token runs up to the next delimiter and the position after that delimiter is
saved. -/
def strtok (s : List Char) : Option (List Char) × List Char :=
  let s := s.dropWhile fun c => c == '='
  if s.isEmpty then
    (none, [])
  else
    (some (s.takeWhile fun c => c != '='), (s.dropWhile fun c => c != '=').drop 1)

/-- The text `argv[index]` after `strtok(argv[index], "=")` has put a NUL in place of
the first `=` after its leading `-`: the name of the flag. -/
def flagName (arg : String) : String :=
  String.mk (arg.data.takeWhile fun c => c != '=')

/-- The result of `strtok(nullptr, "=")` after `strtok(argv[index], "=")`: the value
of the flag, null when nothing but `=` follows the name. -/
def flagValue (arg : String) : Option String :=
  (strtok (strtok arg.data).2).1.map String.mk

/-- The test `!strncmp(literal, text, n)` on C strings: the first `n` characters agree. -/
def strncmp_eq (literal text : String) (n : Nat) : Bool :=
  literal.data.take n == text.data.take n

/-- The `while` loop of `ParseParameters` over `argv[index ..]`, together with the
`if (index < argc)` that follows it: an argument that does not start with `-` ends the
loop and is the command name. The result is the returned `bool`, the parameters and
what was written to `std::cerr`. -/
def ParseParametersLoop : List String → Parameters → Bool × Parameters × List String
  | [], parameters => (true, parameters, [])
  | arg :: rest, parameters =>
    if arg.data.head? = some '-' then
      let name := flagName arg
      if strncmp_eq "-cmd" name 4 then
        ParseParametersLoop rest
          { parameters with cmd_path := flagValue arg, consumed := parameters.consumed + 1 }
      else if strncmp_eq "-pm" name 3 then
        ParseParametersLoop rest
          { parameters with pm_path := flagValue arg, consumed := parameters.consumed + 1 }
      else if strncmp_eq "-shell-arg" name 10 then
        ParseParametersLoop rest
          { parameters with shell_arg := flagValue arg, consumed := parameters.consumed + 1 }
      else if strncmp_eq "-shell" name 6 then
        ParseParametersLoop rest
          { parameters with shell := flagValue arg, consumed := parameters.consumed + 1 }
      else if strncmp_eq "-version" name 8 then
        ParseParametersLoop rest
          { parameters with version := flagValue arg, consumed := parameters.consumed + 1 }
      else if strncmp_eq "-root" name 5 then
        ParseParametersLoop rest
          { parameters with root_directory := flagValue arg,
                            consumed := parameters.consumed + 1 }
      else
        (false, parameters, ["environment parameter unknown:" ++ name ++ "\n"])
    else
      (true, { parameters with command_name := some arg, consumed := parameters.consumed + 1 }, [])

/-- The function `ParseParameters` of `main.cc` on `argv[0]` and `argv[1 ..]`. -/
def ParseParameters (argv0 : String) (args : List String) : Bool × Parameters × List String :=
  ParseParametersLoop args { binary_name := some argv0, consumed := 1 }

/-- One observable action of `main`; `command e` is an action `e` of the command while
it parses its parameters or runs. -/
inductive MainEvent where
  | cerr (text : String)
  | CmdCommand_SetPath (path : String)
  | PackageManager_SetPath (path : String)
  | SetExecutor (shell shell_arg : String)
  | SetRoot (root_directory : String)
  | set_status (status : InstallerStatus)
  | ErrEvent (message : String)
  | SendResponse (response : InstallerResponse)
  | GetCommand (command_name : Option String)
  | ParseParameters (argv : List String)
  | ReadyToRun
  | Valid
  | Run
  | command (e : Event)
  deriving DecidableEq, Repr

/-- The `Workspace` of `main`: the outgoing response and the log of everything done
so far. -/
structure Workspace where
  response : InstallerResponse := {}
  log : List MainEvent := []
  deriving DecidableEq, Repr

/-- What an action of `main` does to the response: only
`workspace.GetResponse().set_status` and the setters of the command change it. -/
def MainEvent.effect : MainEvent → InstallerResponse → InstallerResponse
  | .set_status st, r => { r with status := some st }
  | .command e, r => e.effect r
  | _, r => r

/-- Perform one action of `main`. -/
def Workspace.perform (workspace : Workspace) (e : MainEvent) : Workspace :=
  { response := e.effect workspace.response, log := workspace.log ++ [e] }

/-- The world a command starts from when `main` calls into it. -/
def Workspace.enter (workspace : Workspace) : World :=
  { response := workspace.response, log := [] }

/-- The workspace when the command hands control back with world `w`. -/
def Workspace.leave (workspace : Workspace) (w : World) : Workspace :=
  { response := w.response, log := workspace.log ++ w.log.map MainEvent.command }

/-- Modelled from the spec: a `Command` of `command.h` (not part of the sources) once
`ParseParameters` has run: the readiness flag returned by `ReadyToRun()` and what
`Run()` does. -/
structure ParsedCommand where
  ready_to_run_ : Bool
  Run : World → World

/-- Modelled from the spec: the interface `Command` of `command.h` (not part of the
sources), an object on which `main` calls `ParseParameters`, `ReadyToRun` and `Run`. -/
structure Command where
  ParseParameters : List String → World → ParsedCommand × World

/-- The answers of the outside world to `main`: the embedded version returned by
`GetVersion`, the dispatcher `GetCommand` of `command.cc` (not part of the sources)
and the result of `Workspace::Valid` after the actions logged so far. -/
structure MainEnv where
  GetVersion : String
  GetCommand : Option String → Option Command
  Valid : List MainEvent → Bool

/-- The C string `s.c_str()` as `strcmp` sees it: the text up to the first NUL. -/
def c_str (s : String) : List Char :=
  s.data.takeWhile fun c => c != Char.ofNat 0

/-- The value `EXIT_SUCCESS`. -/
def EXIT_SUCCESS : Int := 0

/-- The value `EXIT_FAILURE`. -/
def EXIT_FAILURE : Int := 1

/-- The function `Fail`: set the status, report the message, send the response and
return `EXIT_FAILURE`. -/
def Fail (status : InstallerStatus) (workspace : Workspace) (message : String) :
    Int × Workspace :=
  let workspace := workspace.perform (MainEvent.set_status status)
  let workspace := workspace.perform (MainEvent.ErrEvent message)
  let workspace := workspace.perform (MainEvent.SendResponse workspace.response)
  (EXIT_FAILURE, workspace)

/-- Lines 181 to 199 of `main`: hand the parsed paths, the shell and the root over. -/
def applyEnvironment (parameters : Parameters) (workspace : Workspace) : Workspace :=
  let workspace := match parameters.cmd_path with
    | some path => workspace.perform (MainEvent.CmdCommand_SetPath path)
    | none => workspace
  let workspace := match parameters.pm_path with
    | some path => workspace.perform (MainEvent.PackageManager_SetPath path)
    | none => workspace
  let workspace := match parameters.shell, parameters.shell_arg with
    | some shell, some shell_arg => workspace.perform (MainEvent.SetExecutor shell shell_arg)
    | _, _ => workspace
  match parameters.root_directory with
  | some root => workspace.perform (MainEvent.SetRoot root)
  | none => workspace

/-- The test `parameters.version != nullptr && strcmp(parameters.version,
GetVersion().c_str())` of `main`. -/
def versionMismatch (env : MainEnv) (parameters : Parameters) : Bool :=
  match parameters.version with
  | some version => version.data != c_str env.GetVersion
  | none => false

/-- Lines 217 to 219 of `main`: the command parses its parameters and is asked whether
it is ready. The result is the command after parsing and the workspace. -/
def parseCommand (task : Command) (args : List String) (workspace : Workspace) :
    ParsedCommand × Workspace :=
  let workspace := workspace.perform (MainEvent.ParseParameters args)
  let parsed := task.ParseParameters args workspace.enter
  let workspace := workspace.leave parsed.2
  let workspace := workspace.perform MainEvent.ReadyToRun
  (parsed.1, workspace)

/-- Lines 231 to 236 of `main`: run the command, set the status to `OK`, send the
response and return `EXIT_SUCCESS`. -/
def runCommand (task : ParsedCommand) (workspace : Workspace) : Int × Workspace :=
  let workspace := workspace.perform MainEvent.Run
  let workspace := workspace.leave (task.Run workspace.enter)
  let workspace := workspace.perform (MainEvent.set_status InstallerStatus.OK)
  let workspace := workspace.perform (MainEvent.SendResponse workspace.response)
  (EXIT_SUCCESS, workspace)

/-- A `return` of `main` with the given exit code and workspace. The way `main` ends
is `some code` when it returns `code`, and `none` when the process is killed before
`main` returns. -/
def returned (r : Int × Workspace) : Option Int × Workspace :=
  (some r.1, r.2)

/-- Lines 210 to 236 of `main`: look the command up, let it parse its parameters,
check the workspace, run the command and send the response. `args` is
`argv + parameters.consumed`. When the command is not ready the message is built as
`"Command "_s + parameters.command_name + ": wrong parameters"`; with a null
`command_name` this appends a null `const char*` to a `std::string`, which is undefined
behaviour: the process is killed by a segmentation fault before `Fail` is called, so
nothing more is done and `main` does not return. -/
def dispatch (env : MainEnv) (parameters : Parameters) (args : List String)
    (workspace : Workspace) : Option Int × Workspace :=
  let workspace := workspace.perform (MainEvent.GetCommand parameters.command_name)
  match env.GetCommand parameters.command_name with
  | none => returned (Fail InstallerStatus.ERROR_CMD workspace "Unknown command")
  | some task =>
    let parsed := parseCommand task args workspace
    let workspace := parsed.2
    if !parsed.1.ready_to_run_ then
      match parameters.command_name with
      | some command_name =>
        returned (Fail InstallerStatus.ERROR_PARAMETER workspace
          ("Command " ++ command_name ++ ": wrong parameters"))
      | none => (none, workspace)
    else
      let valid := env.Valid workspace.log
      let workspace := workspace.perform MainEvent.Valid
      if !valid then
        returned (Fail InstallerStatus.ERROR_CMD workspace "Bad workspace")
      else
        returned (runCommand parsed.1 workspace)

/-- The function `main` of the installer on `argv[0]` and `argv[1 ..]`, so that `argc`
is `args.length + 1`. The result is how `main` ends (`some` exit code, or `none` when
the process is killed) and the workspace at that point. -/
def main (env : MainEnv) (argv0 : String) (args : List String) : Option Int × Workspace :=
  let workspace : Workspace := {}
  if args.length + 1 < 2 then
    returned (Fail InstallerStatus.ERROR_PARAMETER workspace (GetStringUsage argv0))
  else
    let parsed := ParseParameters argv0 args
    let workspace : Workspace := { workspace with log := workspace.log ++ parsed.2.2.map MainEvent.cerr }
    if !parsed.1 then
      returned (Fail InstallerStatus.ERROR_PARAMETER workspace (GetStringUsage argv0))
    else
      let parameters := parsed.2.1
      let workspace := applyEnvironment parameters workspace
      if versionMismatch env parameters then
        returned (Fail InstallerStatus.ERROR_WRONG_VERSION workspace
          ("Version mismatch. Requested:" ++ parameters.version.getD "" ++ "but have " ++
            env.GetVersion))
      else
        dispatch env parameters ((argv0 :: args).drop parameters.consumed) workspace

/-- What the outside world answers to `DeltaPreinstallCommand::ParseParameters`: the
result of `wrapper.Read(&data)` with the data read, and the result of
`request_.ParseFromString(data)` with the content of `request_` afterwards. -/
structure StdinEnv where
  Read : Bool × String
  ParseFromString : String → Bool × DeltaPreinstallRequest

/-- Modelled from the spec: the members of a `DeltaPreinstallCommand`: the request and
the readiness flag of the base class `Command` (`command.h` is not part of the
sources), which starts out false. -/
structure DeltaPreinstallCommand where
  request_ : DeltaPreinstallRequest := { package_name := "", inherit := false, patchinstructions := [] }
  ready_to_run_ : Bool := false
  deriving DecidableEq, Repr

/-- `DeltaPreinstallCommand::ParseParameters`. -/
def DeltaPreinstallCommand.ParseParameters (input : StdinEnv) (self : DeltaPreinstallCommand)
    (w : World) : DeltaPreinstallCommand × World :=
  let read := input.Read
  let data := read.2
  if !read.1 then
    (self, w.perform (Event.ErrEvent "Unable to read data on stdin."))
  else
    let parsed := input.ParseFromString data
    let self := { self with request_ := parsed.2 }
    if !parsed.1 then
      (self, w.perform (Event.ErrEvent "Unable to parse protobuffer request object."))
    else
      ({ self with ready_to_run_ := true }, w)

/-- A freshly constructed `DeltaPreinstallCommand` as `main` sees it through the
interface `Command`. -/
def DeltaPreinstallCommand.toCommand (env : Env) (input : StdinEnv) : Command :=
  { ParseParameters := fun _ w =>
      let parsed := DeltaPreinstallCommand.ParseParameters input {} w
      ({ ready_to_run_ := parsed.1.ready_to_run_, Run := Run env parsed.1.request_ }, parsed.2) }

/-- The responses `main` has sent, in order. -/
def sentResponses : List MainEvent → List InstallerResponse
  | [] => []
  | MainEvent.SendResponse r :: es => r :: sentResponses es
  | _ :: es => sentResponses es

/-- The error messages `main` has reported through `ErrEvent`, in order. -/
def reported : List MainEvent → List String
  | [] => []
  | MainEvent.ErrEvent m :: es => m :: reported es
  | _ :: es => reported es

/-- The actions of lines 181 to 199 of `main`. -/
def MainEvent.isSetup : MainEvent → Bool
  | .CmdCommand_SetPath _ => true
  | .PackageManager_SetPath _ => true
  | .SetExecutor _ _ => true
  | .SetRoot _ => true
  | _ => false

/-- The actions that come after the lookup of a command: the calls of its
`ParseParameters`, `ReadyToRun` and `Run`, of `Workspace::Valid`, and whatever the
command itself does. -/
def MainEvent.afterLookup : MainEvent → Bool
  | .ParseParameters _ => true
  | .ReadyToRun => true
  | .Valid => true
  | .Run => true
  | .command _ => true
  | _ => false

/-- The actions by which a command is looked up, parsed or run. -/
def MainEvent.touchesCommand : MainEvent → Bool
  | .GetCommand _ => true
  | e => e.afterLookup

/-- Whether the name of a flag starts with one of the texts `ParseParameters` compares
it with (`-shell-arg` starts with `-shell`). -/
def acceptedName (name : String) : Bool :=
  strncmp_eq "-cmd" name 4 || strncmp_eq "-pm" name 3 || strncmp_eq "-shell" name 6 ||
    strncmp_eq "-version" name 8 || strncmp_eq "-root" name 5

/-- The arguments before the verb: the leading arguments that start with `-`. -/
def leadingFlags (args : List String) : List String :=
  args.takeWhile fun arg => arg.data.head? == some '-'

end deploy

/-! # Theorems -/

namespace deploy

/-! ## Logs of `SendApkToPackageManager` and of the loop -/

theorem writeCalls_append (a b : List Event) :
    writeCalls (a ++ b) = writeCalls a ++ writeCalls b := by
  induction a with
  | nil => rfl
  | cons e es ih => cases e <;> simp [writeCalls, ih]

theorem sessionOpens_append (a b : List Event) :
    sessionOpens (a ++ b) = sessionOpens a ++ sessionOpens b := by
  induction a with
  | nil => rfl
  | cons e es ih => cases e <;> simp [sessionOpens, ih]

theorem SendApk_log (env : Env) (patch : PatchInstruction) (s : String) (w : World) :
    (SendApkToPackageManager env patch s w).2.log =
      w.log ++ [Event.ForkAndExec "cmd" (writeParameters patch s),
                Event.ApplyPatchToFD patch, Event.close, Event.waitpid] := by
  simp [SendApkToPackageManager, World.perform]

theorem SendApk_response (env : Env) (patch : PatchInstruction) (s : String) (w : World) :
    (SendApkToPackageManager env patch s w).2.response = w.response := by
  simp [SendApkToPackageManager, World.perform, Event.effect]

theorem RunLoopBody_log (env : Env) (request_ : DeltaPreinstallRequest) (s : String)
    (w : World) (patch : PatchInstruction) :
    (RunLoopBody env request_ s w patch).log = w.log ++ patchEvents request_ s patch := by
  unfold RunLoopBody patchEvents
  by_cases h : skipped request_ patch = true
  · simp [h]
  · simp [h, SendApk_log]

theorem RunLoopBody_response (env : Env) (request_ : DeltaPreinstallRequest) (s : String)
    (w : World) (patch : PatchInstruction) :
    (RunLoopBody env request_ s w patch).response = w.response := by
  unfold RunLoopBody
  by_cases h : skipped request_ patch = true
  · simp [h]
  · simp [h, SendApk_response]

theorem RunLoop_log (env : Env) (request_ : DeltaPreinstallRequest) (s : String)
    (ps : List PatchInstruction) (w : World) :
    (RunLoop env request_ s ps w).log = w.log ++ loopEvents request_ s ps := by
  induction ps generalizing w with
  | nil => simp [RunLoop, loopEvents]
  | cons p rest ih => simp [RunLoop, loopEvents, ih, RunLoopBody_log]

theorem RunLoop_response (env : Env) (request_ : DeltaPreinstallRequest) (s : String)
    (ps : List PatchInstruction) (w : World) :
    (RunLoop env request_ s ps w).response = w.response := by
  induction ps generalizing w with
  | nil => rfl
  | cons p rest ih => simp [RunLoop, ih, RunLoopBody_response]

theorem writeCalls_patchEvents (request_ : DeltaPreinstallRequest) (s : String)
    (patch : PatchInstruction) :
    writeCalls (patchEvents request_ s patch) =
      if skipped request_ patch then [] else [("cmd", writeParameters patch s)] := by
  unfold patchEvents
  by_cases h : skipped request_ patch = true
  · simp [h, writeCalls]
  · simp [h, writeCalls]

theorem writeCalls_loopEvents (request_ : DeltaPreinstallRequest) (s : String)
    (ps : List PatchInstruction) :
    writeCalls (loopEvents request_ s ps) =
      (ps.filter fun p => !(skipped request_ p)).map fun p => ("cmd", writeParameters p s) := by
  induction ps with
  | nil => rfl
  | cons p rest ih =>
    simp only [loopEvents, writeCalls_append, writeCalls_patchEvents, ih, List.filter_cons]
    by_cases h : skipped request_ p = true
    · simp [h]
    · simp [h]

/-- The world `Run` leaves when session-open succeeds with id `s`. -/
theorem Run_opened (env : Env) (request_ : DeltaPreinstallRequest) (w : World) (s : String)
    (hopen : env.CreateInstallSession (sessionOptions request_) = (true, s)) :
    Run env request_ w =
      { response := responseAfter w.response
          [Event.set_allocated_deltapreinstall_response, Event.set_session_id s,
           Event.set_status DeltaStatus.OK],
        log := w.log ++ ([Event.set_allocated_deltapreinstall_response,
            Event.CreateInstallSession (sessionOptions request_), Event.set_session_id s] ++
          loopEvents request_ s request_.patchinstructions ++
          [Event.set_status DeltaStatus.OK]) } := by
  simp [Run, hopen, World.perform, RunLoop_log, RunLoop_response, responseAfter, Event.effect]

/-- The world `Run` leaves when session-open fails. -/
theorem Run_refused (env : Env) (request_ : DeltaPreinstallRequest) (w : World)
    (hfail : (env.CreateInstallSession (sessionOptions request_)).1 = false) :
    Run env request_ w =
      { response := responseAfter w.response
          [Event.set_allocated_deltapreinstall_response, Event.set_status DeltaStatus.ERROR],
        log := w.log ++ [Event.set_allocated_deltapreinstall_response,
            Event.CreateInstallSession (sessionOptions request_),
            Event.ErrEvent (env.CreateInstallSession (sessionOptions request_)).2,
            Event.set_status DeltaStatus.ERROR] } := by
  simp [Run, hfail, World.perform, responseAfter, Event.effect]

/-! ## Shape of the loop's actions -/

theorem mem_patchEvents (request_ : DeltaPreinstallRequest) (s : String)
    (patch : PatchInstruction) (e : Event) (h : e ∈ patchEvents request_ s patch) :
    e = Event.ForkAndExec "cmd" (writeParameters patch s) ∨ e = Event.ApplyPatchToFD patch ∨
      e = Event.close ∨ e = Event.waitpid := by
  unfold patchEvents at h
  by_cases hs : skipped request_ patch = true
  · simp [hs] at h
  · simpa [hs] using h

theorem mem_loopEvents (request_ : DeltaPreinstallRequest) (s : String)
    (ps : List PatchInstruction) (e : Event) (h : e ∈ loopEvents request_ s ps) :
    ∃ patch ∈ ps, e = Event.ForkAndExec "cmd" (writeParameters patch s) ∨
      e = Event.ApplyPatchToFD patch ∨ e = Event.close ∨ e = Event.waitpid := by
  induction ps with
  | nil => simp [loopEvents] at h
  | cons p rest ih =>
    simp only [loopEvents, List.mem_append] at h
    rcases h with h | h
    · exact ⟨p, List.mem_cons_self _ _, mem_patchEvents request_ s p e h⟩
    · obtain ⟨q, hq, hq2⟩ := ih h
      exact ⟨q, List.mem_cons_of_mem _ hq, hq2⟩

theorem sessionOpens_loopEvents (request_ : DeltaPreinstallRequest) (s : String)
    (ps : List PatchInstruction) : sessionOpens (loopEvents request_ s ps) = [] := by
  induction ps with
  | nil => rfl
  | cons p rest ih =>
    simp only [loopEvents, sessionOpens_append, ih, List.append_nil]
    unfold patchEvents
    by_cases hs : skipped request_ p = true
    · simp [hs, sessionOpens]
    · simp [hs, sessionOpens]

/-- An action that is neither of the two setters touching the session id leaves it as it is. -/
theorem sessionId_effect (e : Event) (r : InstallerResponse)
    (h1 : e ≠ Event.set_allocated_deltapreinstall_response)
    (h2 : ∀ id, e ≠ Event.set_session_id id) :
    (e.effect r).sessionId = r.sessionId := by
  cases e with
  | set_allocated_deltapreinstall_response => exact absurd rfl h1
  | set_session_id id => exact absurd rfl (h2 id)
  | set_status st =>
    simp only [Event.effect, InstallerResponse.sessionId]
    cases r.deltapreinstall_response <;> rfl
  | _ => rfl

theorem sessionId_responseAfter (evs : List Event) (r : InstallerResponse)
    (h : ∀ e ∈ evs, e ≠ Event.set_allocated_deltapreinstall_response ∧
      ∀ id, e ≠ Event.set_session_id id) :
    (responseAfter r evs).sessionId = r.sessionId := by
  induction evs generalizing r with
  | nil => rfl
  | cons e es ih =>
    have he := h e (List.mem_cons_self _ _)
    have hes : ∀ x ∈ es, x ≠ Event.set_allocated_deltapreinstall_response ∧
        ∀ id, x ≠ Event.set_session_id id := fun x hx => h x (List.mem_cons_of_mem _ hx)
    simp only [responseAfter, List.foldl_cons]
    have := ih (e.effect r) hes
    simp only [responseAfter] at this
    rw [this, sessionId_effect e r he.1 he.2]

/-- No action of the loop, and not the final `set_status`, touches the session id. -/
theorem loop_tail_harmless (request_ : DeltaPreinstallRequest) (s : String)
    (ps : List PatchInstruction) (e : Event)
    (h : e ∈ loopEvents request_ s ps ++ [Event.set_status DeltaStatus.OK]) :
    e ≠ Event.set_allocated_deltapreinstall_response ∧ ∀ id, e ≠ Event.set_session_id id := by
  rw [List.mem_append] at h
  rcases h with h | h
  · obtain ⟨q, _, hq⟩ := mem_loopEvents request_ s ps e h
    rcases hq with hq | hq | hq | hq <;> subst hq <;> simp
  · simp only [List.mem_singleton] at h
    subst h
    simp

theorem responseAfter_append (r : InstallerResponse) (a b : List Event) :
    responseAfter r (a ++ b) = responseAfter (responseAfter r a) b := by
  simp [responseAfter, List.foldl_append]

/-- The actions of the loop leave the response as it is. -/
theorem responseAfter_loopEvents (request_ : DeltaPreinstallRequest) (s : String)
    (ps : List PatchInstruction) (r : InstallerResponse) :
    responseAfter r (loopEvents request_ s ps) = r := by
  have key : ∀ (evs : List Event) (r : InstallerResponse),
      (∀ e ∈ evs, ∀ r1, e.effect r1 = r1) → responseAfter r evs = r := by
    intro evs
    induction evs with
    | nil => intro r _; rfl
    | cons e es ih =>
      intro r h
      simp only [responseAfter, List.foldl_cons]
      rw [h e (List.mem_cons_self _ _) r]
      exact ih r fun x hx => h x (List.mem_cons_of_mem _ hx)
  apply key
  intro e he r1
  obtain ⟨q, _, hq⟩ := mem_loopEvents request_ s ps e he
  rcases hq with hq | hq | hq | hq <;> subst hq <;> rfl

/-- The write-subprocess invocations among the actions of a successful run are those
of its loop. -/
theorem writeCalls_opened (request_ : DeltaPreinstallRequest) (s : String) (o : List String) :
    writeCalls ([Event.set_allocated_deltapreinstall_response,
        Event.CreateInstallSession o, Event.set_session_id s] ++
      loopEvents request_ s request_.patchinstructions ++ [Event.set_status DeltaStatus.OK]) =
    (request_.patchinstructions.filter fun p =>
        !(request_.inherit && p.patches.length == 0)).map fun p =>
      ("cmd", writeParameters p s) := by
  rw [writeCalls_append, writeCalls_append, writeCalls_loopEvents]
  have h1 : writeCalls [Event.set_allocated_deltapreinstall_response,
      Event.CreateInstallSession o, Event.set_session_id s] = [] := rfl
  have h2 : writeCalls [Event.set_status DeltaStatus.OK] = [] := rfl
  rw [h1, h2, List.nil_append, List.append_nil]
  rfl

/-! ## Claims about `DeltaPreinstallCommand::Run` -/

/-- C1: in `Run`, with the session id of a successful session-open, an iteration of
the loop makes no write-subprocess invocation if and only if the inherit flag is set
and the instruction has zero edit operations; every other instruction makes exactly
one; so the run as a whole makes one invocation per instruction that is not skipped. -/
theorem Run_skips_iff_inherit_and_no_edits (env : Env) (request_ : DeltaPreinstallRequest)
    (w : World) (session_id : String)
    (hopen : env.CreateInstallSession (sessionOptions request_) = (true, session_id)) :
    (∀ (w1 : World) (patch : PatchInstruction),
      ((writeCalls (RunLoopBody env request_ session_id w1 patch).log).length =
          (writeCalls w1.log).length ↔
        (request_.inherit = true ∧ patch.patches.length = 0)) ∧
      (¬ (request_.inherit = true ∧ patch.patches.length = 0) →
        (writeCalls (RunLoopBody env request_ session_id w1 patch).log).length =
          (writeCalls w1.log).length + 1)) ∧
    (writeCalls (Run env request_ w).log).length =
      (writeCalls w.log).length +
        (request_.patchinstructions.filter fun p =>
          !(request_.inherit && p.patches.length == 0)).length := by
  refine ⟨fun w1 patch => ?_, ?_⟩
  · rw [RunLoopBody_log, writeCalls_append, writeCalls_patchEvents]
    by_cases h : request_.inherit = true ∧ patch.patches.length = 0
    · have hs : skipped request_ patch = true := by simp [skipped, h.1, h.2]
      simp [hs, h]
    · have hs : ¬ skipped request_ patch = true := by
        simp only [skipped, Bool.and_eq_true, beq_iff_eq]
        exact h
      have hs2 : skipped request_ patch = false := by simpa using hs
      rw [hs2]
      simp only [h, Bool.false_eq_true, if_false, List.length_append, List.length_singleton,
        iff_false, not_false_eq_true, true_implies, and_true]
      omega
  · rw [Run_opened env request_ w session_id hopen]
    simp only [writeCalls_append (w.log), writeCalls_opened, List.length_append,
      List.length_map]

/-- Witness for C1: inherit set, one instruction without edits and one with an edit. -/
theorem Run_skips_iff_inherit_and_no_edits_witness :
    (writeCalls (Run ⟨fun _ => (true, "7"), fun _ => WaitStatus.exited 1⟩
      ⟨"com.app", true, [⟨"/data/app/base.apk", [], 10⟩, ⟨"/data/app/split.apk", [5], 20⟩]⟩
      {}).log).length = 0 + 1 :=
  (Run_skips_iff_inherit_and_no_edits ⟨fun _ => (true, "7"), fun _ => WaitStatus.exited 1⟩
    ⟨"com.app", true, [⟨"/data/app/base.apk", [], 10⟩, ⟨"/data/app/split.apk", [5], 20⟩]⟩
    {} "7" rfl).2

/-- C2: when session-open succeeds, the write-subprocess invocations of `Run` are the
request's instructions with the skipped ones removed, in request order, whatever each
write returns: an environment that answers the writes differently sees the same log. -/
theorem Run_writes_in_request_order (env : Env) (request_ : DeltaPreinstallRequest)
    (w : World) (session_id : String)
    (hopen : env.CreateInstallSession (sessionOptions request_) = (true, session_id)) :
    writeCalls (Run env request_ w).log =
      writeCalls w.log ++
        ((request_.patchinstructions.filter fun p =>
            !(request_.inherit && p.patches.length == 0)).map fun p =>
          ("cmd", writeParameters p session_id)) ∧
    ∀ waitpid1 : List Event → WaitStatus,
      (Run ⟨env.CreateInstallSession, waitpid1⟩ request_ w).log = (Run env request_ w).log := by
  refine ⟨?_, fun waitpid1 => ?_⟩
  · rw [Run_opened env request_ w session_id hopen]
    simp only [writeCalls_append (w.log), writeCalls_opened]
  · rw [Run_opened env request_ w session_id hopen,
      Run_opened ⟨env.CreateInstallSession, waitpid1⟩ request_ w session_id hopen]

/-- Witness for C2: two instructions whose writes both fail are both attempted, in order. -/
theorem Run_writes_in_request_order_witness :
    writeCalls (Run ⟨fun _ => (true, "7"), fun _ => WaitStatus.exited 1⟩
      ⟨"com.app", false, [⟨"/data/app/base.apk", [], 10⟩, ⟨"/data/app/split.apk", [5], 20⟩]⟩
      {}).log =
    [("cmd", ["package", "install-write", "-S", "10", "7", "base.apk"]),
     ("cmd", ["package", "install-write", "-S", "20", "7", "split.apk"])] :=
  (Run_writes_in_request_order ⟨fun _ => (true, "7"), fun _ => WaitStatus.exited 1⟩
    ⟨"com.app", false, [⟨"/data/app/base.apk", [], 10⟩, ⟨"/data/app/split.apk", [5], 20⟩]⟩
    {} "7" rfl).1

/-- C3: if session-open fails, `Run` makes no write-subprocess invocation, sets the
delta-install status to `ERROR` and leaves the session id unset. -/
theorem Run_session_open_fails (env : Env) (request_ : DeltaPreinstallRequest) (w : World)
    (hfail : (env.CreateInstallSession (sessionOptions request_)).1 = false) :
    (∃ evs, (Run env request_ w).log = w.log ++ evs ∧ writeCalls evs = []) ∧
    (Run env request_ w).response.deltaStatus = some DeltaStatus.ERROR ∧
    (Run env request_ w).response.sessionId = none := by
  rw [Run_refused env request_ w hfail]
  exact ⟨⟨_, rfl, rfl⟩, rfl, rfl⟩

/-- Witness for C3: a refused session with one pending instruction. -/
theorem Run_session_open_fails_witness :
    (Run ⟨fun _ => (false, "denied"), fun _ => WaitStatus.exited 0⟩
      ⟨"com.app", false, [⟨"/data/app/base.apk", [1], 10⟩]⟩ {}).response.deltaStatus =
        some DeltaStatus.ERROR :=
  (Run_session_open_fails ⟨fun _ => (false, "denied"), fun _ => WaitStatus.exited 0⟩
    ⟨"com.app", false, [⟨"/data/app/base.apk", [1], 10⟩]⟩ {} rfl).2.1

/-- C4: when session-open succeeds with id `s`, the response's session id is `s` from
the moment `set_session_id` has been performed, at every later point of the run and
when `Run` returns; every write-subprocess invocation comes after that moment and
carries `s` as its session argument. -/
theorem Run_session_id_stable (env : Env) (request_ : DeltaPreinstallRequest) (w : World)
    (s : String) (hopen : env.CreateInstallSession (sessionOptions request_) = (true, s)) :
    ∃ evs, (Run env request_ w).log = w.log ++ evs ∧
      (Run env request_ w).response = responseAfter w.response evs ∧
      (∀ pre post, evs = pre ++ post → Event.set_session_id s ∈ pre →
        (responseAfter w.response pre).sessionId = some s) ∧
      (∀ pre program parameters post, evs = pre ++ Event.ForkAndExec program parameters :: post →
        Event.set_session_id s ∈ pre ∧ parameters[4]? = some s) ∧
      (Run env request_ w).response.sessionId = some s := by
  have hstable : ∀ pre post,
      [Event.set_allocated_deltapreinstall_response,
        Event.CreateInstallSession (sessionOptions request_), Event.set_session_id s] ++
        loopEvents request_ s request_.patchinstructions ++ [Event.set_status DeltaStatus.OK] =
        pre ++ post →
      Event.set_session_id s ∈ pre → (responseAfter w.response pre).sessionId = some s := by
    intro pre post hsplit hmem
    match pre, hsplit, hmem with
    | [], _, hmem => simp at hmem
    | [e1], hsplit, hmem =>
      simp only [List.cons_append, List.nil_append, List.cons.injEq] at hsplit
      rw [← hsplit.1] at hmem
      simp at hmem
    | [e1, e2], hsplit, hmem =>
      simp only [List.cons_append, List.nil_append, List.cons.injEq] at hsplit
      rw [← hsplit.1, ← hsplit.2.1] at hmem
      simp at hmem
    | e1 :: e2 :: e3 :: rest, hsplit, _ =>
      simp only [List.cons_append, List.nil_append, List.cons.injEq] at hsplit
      obtain ⟨h1, h2, h3, h4⟩ := hsplit
      subst h1 h2 h3
      have hrest : ∀ e ∈ rest, e ≠ Event.set_allocated_deltapreinstall_response ∧
          ∀ id, e ≠ Event.set_session_id id := by
        intro e he
        apply loop_tail_harmless request_ s request_.patchinstructions e
        rw [h4]
        exact List.mem_append_left _ he
      have := sessionId_responseAfter rest
        (responseAfter w.response [Event.set_allocated_deltapreinstall_response,
          Event.CreateInstallSession (sessionOptions request_), Event.set_session_id s]) hrest
      simp only [responseAfter, List.foldl_cons, List.foldl_nil] at this ⊢
      rw [this]
      simp [Event.effect, InstallerResponse.sessionId]
  refine ⟨_, by rw [Run_opened env request_ w s hopen], ?_, hstable, ?_, ?_⟩
  · rw [Run_opened env request_ w s hopen]
    simp only [responseAfter_append, responseAfter_loopEvents]
    rfl
  · intro pre program parameters post hsplit
    match pre, hsplit with
    | [], hsplit => simp at hsplit
    | [e1], hsplit => simp at hsplit
    | [e1, e2], hsplit => simp at hsplit
    | e1 :: e2 :: e3 :: rest, hsplit =>
      simp only [List.cons_append, List.nil_append, List.cons.injEq] at hsplit
      obtain ⟨h1, h2, h3, h4⟩ := hsplit
      subst h1 h2 h3
      refine ⟨by simp, ?_⟩
      have hmem : Event.ForkAndExec program parameters ∈
          loopEvents request_ s request_.patchinstructions ++ [Event.set_status DeltaStatus.OK] := by
        rw [h4]
        simp
      rw [List.mem_append] at hmem
      rcases hmem with hmem | hmem
      · obtain ⟨q, _, hq⟩ := mem_loopEvents request_ s _ _ hmem
        rcases hq with hq | hq | hq | hq
        · simp only [Event.ForkAndExec.injEq] at hq
          rw [hq.2]
          rfl
        · simp at hq
        · simp at hq
        · simp at hq
      · simp at hmem
  · rw [Run_opened env request_ w s hopen]
    simp [responseAfter, Event.effect, InstallerResponse.sessionId]

/-- Witness for C4: session "7", two instructions, every write failing. -/
theorem Run_session_id_stable_witness :
    ∃ evs, (Run ⟨fun _ => (true, "7"), fun _ => WaitStatus.signaled 9⟩
        ⟨"com.app", false, [⟨"/data/app/base.apk", [], 10⟩, ⟨"split.apk", [5], 20⟩]⟩ {}).log =
        [] ++ evs ∧
      (Run ⟨fun _ => (true, "7"), fun _ => WaitStatus.signaled 9⟩
        ⟨"com.app", false, [⟨"/data/app/base.apk", [], 10⟩, ⟨"split.apk", [5], 20⟩]⟩
        {}).response.sessionId = some "7" := by
  obtain ⟨evs, h1, _, _, _, h5⟩ :=
    Run_session_id_stable ⟨fun _ => (true, "7"), fun _ => WaitStatus.signaled 9⟩
      ⟨"com.app", false, [⟨"/data/app/base.apk", [], 10⟩, ⟨"split.apk", [5], 20⟩]⟩ {} "7" rfl
  exact ⟨evs, h1, h5⟩

/-- C5: whenever session-open succeeds, `Run` finishes with delta-install status `OK`,
whatever the writes return; with no patch instruction and inherit unset it does so
without a single write-subprocess invocation. -/
theorem Run_finishes_OK (env : Env) (request_ : DeltaPreinstallRequest) (w : World)
    (hopen : (env.CreateInstallSession (sessionOptions request_)).1 = true) :
    (Run env request_ w).response.deltaStatus = some DeltaStatus.OK ∧
    (∀ waitpid1 : List Event → WaitStatus,
      (Run ⟨env.CreateInstallSession, waitpid1⟩ request_ w).response.deltaStatus =
        some DeltaStatus.OK) ∧
    (request_.patchinstructions = [] → request_.inherit = false →
      ∃ evs, (Run env request_ w).log = w.log ++ evs ∧ writeCalls evs = []) := by
  have hpair : env.CreateInstallSession (sessionOptions request_) =
      (true, (env.CreateInstallSession (sessionOptions request_)).2) := by
    rw [← hopen]
  refine ⟨?_, fun waitpid1 => ?_, fun hnil _ => ?_⟩
  · rw [Run_opened env request_ w _ hpair]
    simp [responseAfter, Event.effect, InstallerResponse.deltaStatus]
  · rw [Run_opened ⟨env.CreateInstallSession, waitpid1⟩ request_ w _ hpair]
    simp [responseAfter, Event.effect, InstallerResponse.deltaStatus]
  · rw [Run_opened env request_ w _ hpair]
    refine ⟨_, rfl, ?_⟩
    rw [writeCalls_opened, hnil]
    rfl

/-- Witness for C5: an empty request without inherit. -/
theorem Run_finishes_OK_witness :
    (Run ⟨fun _ => (true, "7"), fun _ => WaitStatus.exited 0⟩ ⟨"com.app", false, []⟩
      {}).response.deltaStatus = some DeltaStatus.OK :=
  (Run_finishes_OK ⟨fun _ => (true, "7"), fun _ => WaitStatus.exited 0⟩ ⟨"com.app", false, []⟩
    {} rfl).1

/-- C7: `Run` makes exactly one session-open call, with options `-t -r --dont-kill`,
followed by `-p package_name` exactly when the inherit flag is set. -/
theorem Run_opens_one_session (env : Env) (request_ : DeltaPreinstallRequest) (w : World) :
    sessionOpens (Run env request_ w).log =
      sessionOpens w.log ++
        [if request_.inherit = true then ["-t", "-r", "--dont-kill", "-p", request_.package_name]
         else ["-t", "-r", "--dont-kill"]] := by
  have hopts : sessionOptions request_ =
      if request_.inherit = true then ["-t", "-r", "--dont-kill", "-p", request_.package_name]
      else ["-t", "-r", "--dont-kill"] := by
    unfold sessionOptions
    cases request_.inherit <;> rfl
  cases hc : (env.CreateInstallSession (sessionOptions request_)).1 with
  | false =>
    rw [Run_refused env request_ w hc, ← hopts]
    simp only [sessionOpens_append]
    rfl
  | true =>
    have hpair : env.CreateInstallSession (sessionOptions request_) =
        (true, (env.CreateInstallSession (sessionOptions request_)).2) := by
      rw [← hc]
    rw [Run_opened env request_ w _ hpair, ← hopts]
    simp only [sessionOpens_append, sessionOpens_loopEvents]
    rfl

/-! ## The file name given to the package manager -/

theorem rfind?_none_of_not_mem (s : List Char) (c : Char) (h : c ∉ s) : rfind? s c = none := by
  induction s with
  | nil => rfl
  | cons x xs ih =>
    have hx : ¬ x = c := fun e => h (e ▸ List.mem_cons_self _ _)
    have hxs : c ∉ xs := fun e => h (List.mem_cons_of_mem _ e)
    simp [rfind?, ih hxs, hx]

theorem rfind?_cons_some (x : Char) (l : List Char) (c : Char) (i : Fin l.length)
    (h : rfind? l c = some i) : rfind? (x :: l) c = some i.succ := by
  simp only [rfind?, h]

theorem rfind?_cons_self (l : List Char) (c : Char) (h : rfind? l c = none) :
    rfind? (c :: l) c = some ⟨0, Nat.succ_pos _⟩ := by
  simp only [rfind?, h, if_true]

/-- The last occurrence: when `c` does not occur after it, `rfind?` returns its index. -/
theorem rfind?_last (pre post : List Char) (c : Char) (h : c ∉ post) :
    ∃ i, rfind? (pre ++ c :: post) c = some i ∧ i.val = pre.length := by
  induction pre with
  | nil =>
    exact ⟨⟨0, Nat.succ_pos _⟩, rfind?_cons_self post c (rfind?_none_of_not_mem post c h), rfl⟩
  | cons x xs ih =>
    obtain ⟨i, hi, hv⟩ := ih
    exact ⟨i.succ, rfind?_cons_some x (xs ++ c :: post) c i hi, by simp [hv]⟩

theorem rfind_last (pre post : List Char) (c : Char) (h : c ∉ post) :
    rfind (pre ++ c :: post) c = pre.length := by
  obtain ⟨i, hi, hv⟩ := rfind?_last pre post c h
  simp only [rfind, hi, hv]

/-- A list containing `c` splits at the last occurrence of `c`. -/
theorem exists_last_occurrence (s : List Char) (c : Char) (h : c ∈ s) :
    ∃ pre post, s = pre ++ c :: post ∧ c ∉ post := by
  induction s with
  | nil => simp at h
  | cons x xs ih =>
    by_cases hxs : c ∈ xs
    · obtain ⟨pre, post, he, hn⟩ := ih hxs
      exact ⟨x :: pre, post, by rw [he]; rfl, hn⟩
    · have hx : c = x := by
        rcases List.mem_cons.1 h with h1 | h1
        · exact h1
        · exact absurd h1 hxs
      exact ⟨[], xs, by rw [hx]; rfl, hxs⟩

theorem apkName_of_no_slash (apk : String) (h : '/' ∉ apk.data) : apkName apk = apk := by
  have hnone := rfind?_none_of_not_mem apk.data '/' h
  have hpos : size_t_add (rfind apk.data '/') 1 = 0 := by
    simp [size_t_add, rfind, hnone, npos]
  simp only [apkName, substr, hpos, List.drop_zero]

theorem apkName_of_last_slash (apk : String) (pre post : List Char)
    (hlen : apk.length < 2 ^ 64) (hsplit : apk.data = pre ++ '/' :: post) (h : '/' ∉ post) :
    (apkName apk).data = post := by
  have hr : rfind apk.data '/' = pre.length := by
    rw [hsplit]
    exact rfind_last pre post '/' h
  have hl : pre.length + 1 < 2 ^ 64 := by
    have : apk.data.length = pre.length + (post.length + 1) := by simp [hsplit]
    have h2 : apk.length = apk.data.length := rfl
    omega
  have hpos : size_t_add (rfind apk.data '/') 1 = pre.length + 1 := by
    simp only [size_t_add, hr]
    exact Nat.mod_eq_of_lt hl
  simp only [apkName, substr, hpos]
  rw [hsplit]
  simp

/-- C6: `SendApkToPackageManager` starts exactly one child, program `cmd`, with
arguments `package install-write -S <decimal size> <session id> <name>`, where `name`
is what follows the last `/` of the source path (the whole path when it has none):
it holds no `/` and the path ends with it. -/
theorem SendApk_starts_one_install_write (env : Env) (patch : PatchInstruction)
    (session_id : String) (w : World) (hlen : patch.src_absolute_path.length < 2 ^ 64) :
    (∃ evs, (SendApkToPackageManager env patch session_id w).2.log = w.log ++ evs ∧
      writeCalls evs =
        [("cmd", ["package", "install-write", "-S", to_string patch.dst_filesize, session_id,
          apkName patch.src_absolute_path])]) ∧
    ('/' ∉ patch.src_absolute_path.data →
      apkName patch.src_absolute_path = patch.src_absolute_path) ∧
    (∀ pre post, patch.src_absolute_path.data = pre ++ '/' :: post → '/' ∉ post →
      (apkName patch.src_absolute_path).data = post) ∧
    '/' ∉ (apkName patch.src_absolute_path).data ∧
    (apkName patch.src_absolute_path).data <:+ patch.src_absolute_path.data := by
  refine ⟨⟨_, SendApk_log env patch session_id w, rfl⟩,
    apkName_of_no_slash _, fun pre post hs hn => apkName_of_last_slash _ pre post hlen hs hn,
    ?_, ?_⟩
  · by_cases hmem : '/' ∈ patch.src_absolute_path.data
    · obtain ⟨pre, post, hs, hn⟩ := exists_last_occurrence _ _ hmem
      rw [apkName_of_last_slash _ pre post hlen hs hn]
      exact hn
    · rw [apkName_of_no_slash _ hmem]
      exact hmem
  · simp only [apkName, substr]
    exact List.drop_suffix _ _

/-- Witness for C6: the path `/data/app/base.apk` is written under the name `base.apk`. -/
theorem SendApk_starts_one_install_write_witness :
    (∃ evs, (SendApkToPackageManager ⟨fun _ => (true, "7"), fun _ => WaitStatus.exited 0⟩
        ⟨"/data/app/base.apk", [1], 1024⟩ "7" {}).2.log = [] ++ evs ∧
      writeCalls evs =
        [("cmd", ["package", "install-write", "-S", "1024", "7", "base.apk"])]) :=
  (SendApk_starts_one_install_write ⟨fun _ => (true, "7"), fun _ => WaitStatus.exited 0⟩
    ⟨"/data/app/base.apk", [1], 1024⟩ "7" {} (by decide)).1

end deploy

namespace bash_bridge

/-! ## `read`, `writeInt` and `readInt` -/

/-- What `read` returns: a number `r` of bytes within the count and the pending data,
positive when there is data and room, taken off the front of the stream. -/
theorem read_spec (fd : InStream) (count : Nat) :
    ∃ r, r ≤ count ∧ r ≤ fd.data.length ∧ (fd.data ≠ [] → 0 < count → 0 < r) ∧
      (read fd count).1 = fd.data.take r ∧
      (read fd count).2 = { data := fd.data.drop r, cuts := fd.cuts.tail } := by
  refine ⟨min (min count fd.data.length) (match fd.cuts with
    | [] => count
    | c :: _ => max c 1), ?_, ?_, ?_, rfl, rfl⟩
  · exact Nat.le_trans (Nat.min_le_left _ _) (Nat.min_le_left _ _)
  · exact Nat.le_trans (Nat.min_le_left _ _) (Nat.min_le_right _ _)
  · intro hne hpos
    have hlen : 0 < fd.data.length := List.length_pos.2 hne
    cases fd.cuts with
    | nil => simp only [Nat.lt_min]; omega
    | cons c cs => simp only [Nat.lt_min]; omega

/-- The shifts and ors of `readInt` add up the four bytes, most significant first. -/
theorem shift_or_eq (a b c d : Nat) (hb : b < 256) (hc : c < 256) (hd : d < 256) :
    a <<< 24 ||| b <<< 16 ||| c <<< 8 ||| d = a * 2 ^ 24 + b * 2 ^ 16 + c * 2 ^ 8 + d := by
  simp only [Nat.shiftLeft_eq]
  have h1 : a * 2 ^ 24 ||| b * 2 ^ 16 = a * 2 ^ 24 + b * 2 ^ 16 := by
    have := Nat.mul_add_lt_is_or (i := 24) (b := b * 2 ^ 16) (by omega) a
    rw [Nat.mul_comm (2 ^ 24) a] at this
    exact this.symm
  have h2 : (a * 2 ^ 24 + b * 2 ^ 16) ||| c * 2 ^ 8 = a * 2 ^ 24 + b * 2 ^ 16 + c * 2 ^ 8 := by
    have := Nat.mul_add_lt_is_or (i := 16) (b := c * 2 ^ 8) (by omega) (a * 2 ^ 8 + b)
    have e : 2 ^ 16 * (a * 2 ^ 8 + b) = a * 2 ^ 24 + b * 2 ^ 16 := by ring
    rw [e] at this
    exact this.symm
  have h3 : (a * 2 ^ 24 + b * 2 ^ 16 + c * 2 ^ 8) ||| d =
      a * 2 ^ 24 + b * 2 ^ 16 + c * 2 ^ 8 + d := by
    have := Nat.mul_add_lt_is_or (i := 8) (b := d) (by omega) (a * 2 ^ 16 + b * 2 ^ 8 + c)
    have e : 2 ^ 8 * (a * 2 ^ 16 + b * 2 ^ 8 + c) = a * 2 ^ 24 + b * 2 ^ 16 + c * 2 ^ 8 := by
      ring
    rw [e] at this
    exact this.symm
  rw [h1, h2, h3]

/-- Decoding the buffer of `writeInt` gives the value back, for every 32-bit `int`. -/
theorem decode_writeIntBuffer (v : Int) (h1 : -2 ^ 31 ≤ v) (h2 : v < 2 ^ 31) :
    int32 (((lowByte (v / 2 ^ 24)).val <<< 24 ||| (lowByte (v / 2 ^ 16)).val <<< 16 |||
      (lowByte (v / 2 ^ 8)).val <<< 8 ||| (lowByte v).val : Nat) : Int) = v := by
  rw [shift_or_eq _ _ _ _ (lowByte (v / 2 ^ 16)).isLt (lowByte (v / 2 ^ 8)).isLt
    (lowByte v).isLt]
  simp only [lowByte, int32]
  push_cast
  omega

/-- The loop of `readInt` ends once the stream holds the bytes still needed, however
the reads are fragmented. -/
theorem readIntLoop_complete (fuel : Nat) :
    ∀ (buffer need tail : List Byte) (cuts : List Nat),
      buffer.length + need.length = 4 → need.length < fuel →
      ∃ cuts1, readIntLoop fuel { data := need ++ tail, cuts := cuts } buffer =
        some (buffer ++ need, { data := tail, cuts := cuts1 }) := by
  induction fuel with
  | zero => intro _ need _ _ _ h; omega
  | succ fuel ih =>
    intro buffer need tail cuts hlen hfuel
    by_cases hb : buffer.length < 4
    · obtain ⟨r, hr1, _, hr3, hr4, hr5⟩ :=
        read_spec { data := need ++ tail, cuts := cuts } (4 - buffer.length)
      have hne : need ≠ [] := by
        intro h
        rw [h] at hlen
        simp at hlen
        omega
      have hrpos : 0 < r := hr3 (by simp [hne]) (by omega)
      have hrle : r ≤ need.length := by omega
      simp only [readIntLoop, hb, if_true, hr4, hr5]
      rw [List.take_append_of_le_length hrle, List.drop_append_of_le_length hrle]
      obtain ⟨cuts1, hc⟩ := ih (buffer ++ need.take r) (need.drop r) tail cuts.tail
        (by simp [List.length_take, List.length_drop]; omega)
        (by simp [List.length_drop]; omega)
      refine ⟨cuts1, ?_⟩
      rw [hc, List.append_assoc, List.take_append_drop]
    · have hn : need = [] := by
        apply List.eq_nil_of_length_eq_zero
        omega
      subst hn
      exact ⟨cuts, by simp [readIntLoop, hb]⟩

theorem readIntLoop_succ (fuel : Nat) (fd : InStream) (buffer : List Byte) :
    readIntLoop (fuel + 1) fd buffer =
      if buffer.length < 4 then
        readIntLoop fuel (read fd (4 - buffer.length)).2 (buffer ++ (read fd (4 - buffer.length)).1)
      else some (buffer, fd) := rfl

/-- At end of stream the loop of `readInt` never ends, whatever the number of rounds. -/
theorem readIntLoop_end_of_stream (fuel : Nat) :
    ∀ (buffer : List Byte) (cuts : List Nat), buffer.length < 4 →
      readIntLoop fuel { data := [], cuts := cuts } buffer = none := by
  induction fuel with
  | zero => intro _ _ _; rfl
  | succ fuel ih =>
    intro buffer cuts hb
    have hread : read { data := [], cuts := cuts } (4 - buffer.length) =
        ([], { data := [], cuts := cuts.tail }) := by
      simp [read]
    rw [readIntLoop_succ, hread]
    simp only [hb, if_true, List.append_nil]
    exact ih buffer cuts.tail hb

/-- More rounds than bytes still needed change nothing: five rounds decide `readInt`. -/
theorem readIntLoop_fuel (fuel : Nat) :
    ∀ (fd : InStream) (buffer : List Byte), buffer.length ≤ 4 → 4 - buffer.length < fuel →
      readIntLoop (fuel + 1) fd buffer = readIntLoop fuel fd buffer := by
  induction fuel with
  | zero => intro _ _ _ h; omega
  | succ fuel ih =>
    intro fd buffer hle hfuel
    rw [readIntLoop_succ (fuel + 1) fd buffer, readIntLoop_succ fuel fd buffer]
    by_cases hb : buffer.length < 4
    · obtain ⟨r, hr1, hr2, hr3, hr4, hr5⟩ := read_spec fd (4 - buffer.length)
      simp only [hb, if_true, hr4, hr5]
      by_cases hd : fd.data = []
      · simp only [hd, List.take_nil, List.drop_nil, List.append_nil]
        rw [readIntLoop_end_of_stream _ buffer _ hb, readIntLoop_end_of_stream _ buffer _ hb]
      · have hrpos : 0 < r := hr3 hd (by omega)
        have hlen : (fd.data.take r).length = r := by simp [List.length_take]; omega
        exact ih _ _ (by simp only [List.length_append, hlen]; omega)
          (by simp only [List.length_append, hlen]; omega)
    · simp only [hb, if_false]

/-- `readInt` reads back what `writeInt` wrote, under any fragmentation of the reads. -/
theorem readInt_writeIntBuffer (v : Int) (h1 : -2 ^ 31 ≤ v) (h2 : v < 2 ^ 31)
    (tail : List Byte) (cuts : List Nat) :
    ∃ cuts1, readInt { data := writeIntBuffer v ++ tail, cuts := cuts } =
      some (v, { data := tail, cuts := cuts1 }) := by
  obtain ⟨cuts1, hc⟩ := readIntLoop_complete 5 [] (writeIntBuffer v) tail cuts (by rfl)
    (by simp [writeIntBuffer])
  refine ⟨cuts1, ?_⟩
  rw [List.nil_append] at hc
  unfold readInt
  rw [hc]
  simp only [writeIntBuffer]
  rw [decode_writeIntBuffer v h1 h2]

/-! ## One round of the socket branch -/

/-- With `chunk` bytes of the current frame pending on the socket, `forwardChunk` moves
at least one of them to stdout and keeps count of the rest. -/
theorem forwardChunk_spec (st : Bridge) (cur tail : List Byte)
    (hc : st.chunk = cur.length) (hne : cur ≠ []) (hd : st.sock.data = cur ++ tail) :
    ∃ st1 r, forwardChunk st = (none, st1) ∧ 0 < r ∧ r ≤ cur.length ∧
      st1.chunk = ((cur.drop r).length : Nat) ∧ st1.sock.data = cur.drop r ++ tail ∧
      st1.stdout = st.stdout ++ cur.take r ∧ st1.stdin = st.stdin ∧ st1.sent = st.sent := by
  have hlen : 0 < cur.length := List.length_pos.2 hne
  have hcount : ¬ ((if st.chunk > 8192 then (8192 : Int) else st.chunk) < 0) := by
    split <;> omega
  obtain ⟨r, hr1, hr2, hr3, hr4, hr5⟩ :=
    read_spec st.sock (if st.chunk > 8192 then (8192 : Int) else st.chunk).toNat
  have hdne : st.sock.data ≠ [] := by simp [hd, hne]
  have hrpos : 0 < r := hr3 hdne (by split <;> omega)
  have hrle : r ≤ cur.length := by
    have : (if st.chunk > 8192 then (8192 : Int) else st.chunk).toNat ≤ cur.length := by
      split <;> omega
    omega
  have htake : st.sock.data.take r = cur.take r := by
    rw [hd, List.take_append_of_le_length hrle]
  have hdrop : st.sock.data.drop r = cur.drop r ++ tail := by
    rw [hd, List.drop_append_of_le_length hrle]
  have hgot : (cur.take r).length = r := by simp [List.length_take]; omega
  have hbuf : List.take r (cur.take r ++ st.buffer.drop r) = cur.take r := by
    have := List.take_left (cur.take r) (st.buffer.drop r)
    rwa [hgot] at this
  refine ⟨{ st with sock := { data := cur.drop r ++ tail, cuts := st.sock.cuts.tail },
                    buffer := cur.take r ++ st.buffer.drop r,
                    stdout := st.stdout ++ cur.take r,
                    chunk := st.chunk - r }, r, ?_, hrpos, hrle, ?_, rfl, rfl, rfl, rfl⟩
  · simp only [forwardChunk, write, hcount, if_false, hr4, hr5, htake, hdrop, hgot, hbuf]
  · simp only [hc, List.length_drop]
    omega

theorem readHeader_busy (st : Bridge) (h : st.chunk ≠ 0) : readHeader st = (none, st) := by
  simp [readHeader, h]

/-- With no chunk in progress and a frame of non-zero length `n` next on the socket,
`readHeader` stores `n` in `chunk` and leaves the payload pending. -/
theorem readHeader_frame (st : Bridge) (n : Int) (tail : List Byte)
    (hc : st.chunk = 0) (hd : st.sock.data = writeIntBuffer n ++ tail)
    (hn : n ≠ 0) (h1 : -2 ^ 31 ≤ n) (h2 : n < 2 ^ 31) :
    ∃ cuts1, readHeader st =
      (none, { st with chunk := n, sock := { data := tail, cuts := cuts1 } }) := by
  obtain ⟨stdin, ⟨data, cuts⟩, sent, out, buf, chunk⟩ := st
  simp only at hc hd
  subst hc hd
  obtain ⟨cuts1, hr⟩ := readInt_writeIntBuffer n h1 h2 tail cuts
  exact ⟨cuts1, by simp [readHeader, hr, hn]⟩

/-- With no chunk in progress and the zero length and exit code next on the socket,
`readHeader` ends `main` with that exit code. -/
theorem readHeader_end (st : Bridge) (exitCode : Int) (tail : List Byte)
    (hc : st.chunk = 0)
    (hd : st.sock.data = writeIntBuffer 0 ++ (writeIntBuffer exitCode ++ tail))
    (h1 : -2 ^ 31 ≤ exitCode) (h2 : exitCode < 2 ^ 31) :
    ∃ cuts1, readHeader st =
      (some (Outcome.returned exitCode),
        { st with chunk := 0, sock := { data := tail, cuts := cuts1 } }) := by
  obtain ⟨stdin, ⟨data, cuts⟩, sent, out, buf, chunk⟩ := st
  simp only at hc hd
  subst hc hd
  obtain ⟨cuts1, hr⟩ := readInt_writeIntBuffer 0 (by norm_num) (by norm_num)
    (writeIntBuffer exitCode ++ tail) cuts
  obtain ⟨cuts2, hr2⟩ := readInt_writeIntBuffer exitCode h1 h2 tail cuts1
  exact ⟨cuts2, by simp [readHeader, hr, hr2]⟩

/-- One round of the socket branch on well-formed traffic: `cur` is what is left of
the frame in progress, `rest` the frames to come. Either everything has been delivered
and `main` returns the exit code, or at least one more payload byte reaches stdout. -/
theorem serviceSocket_spec (st : Bridge) (cur : List Byte) (rest : List (List Byte))
    (exitCode : Int) (hc : st.chunk = cur.length) (hd : st.sock.data = cur ++ wire rest exitCode)
    (hrest : ∀ p ∈ rest, 0 < p.length ∧ p.length < 2 ^ 31)
    (h1 : -2 ^ 31 ≤ exitCode) (h2 : exitCode < 2 ^ 31) :
    (cur = [] ∧ rest = [] ∧ ∃ st1, serviceSocket st = (some (Outcome.returned exitCode), st1) ∧
      st1.stdout = st.stdout) ∨
    (∃ st1 cur1 rest1, serviceSocket st = (none, st1) ∧ st1.chunk = cur1.length ∧
      st1.sock.data = cur1 ++ wire rest1 exitCode ∧
      (∀ p ∈ rest1, 0 < p.length ∧ p.length < 2 ^ 31) ∧
      st1.stdout ++ cur1 ++ rest1.flatten = st.stdout ++ cur ++ rest.flatten ∧
      cur1.length + rest1.flatten.length < cur.length + rest.flatten.length) := by
  have hforward : ∀ (st0 : Bridge) (cur0 : List Byte) (rest0 : List (List Byte)),
      readHeader st = (none, st0) → st0.stdout = st.stdout → cur0 ≠ [] →
      st0.chunk = cur0.length → st0.sock.data = cur0 ++ wire rest0 exitCode →
      (∀ p ∈ rest0, 0 < p.length ∧ p.length < 2 ^ 31) →
      cur0 ++ rest0.flatten = cur ++ rest.flatten →
      ∃ st1 cur1 rest1, serviceSocket st = (none, st1) ∧ st1.chunk = cur1.length ∧
        st1.sock.data = cur1 ++ wire rest1 exitCode ∧
        (∀ p ∈ rest1, 0 < p.length ∧ p.length < 2 ^ 31) ∧
        st1.stdout ++ cur1 ++ rest1.flatten = st.stdout ++ cur ++ rest.flatten ∧
        cur1.length + rest1.flatten.length < cur.length + rest.flatten.length := by
    intro st0 cur0 rest0 hh hout hne hc0 hd0 hrest0 hsame
    obtain ⟨st1, r, hf, hrpos, hrle, hchunk, hdata, hstdout, _, _⟩ :=
      forwardChunk_spec st0 cur0 (wire rest0 exitCode) hc0 hne hd0
    refine ⟨st1, cur0.drop r, rest0, ?_, hchunk, hdata, hrest0, ?_, ?_⟩
    · simp only [serviceSocket, hh, hf]
    · rw [hstdout, hout, List.append_assoc _ (cur0.take r), List.take_append_drop,
        List.append_assoc, hsame, ← List.append_assoc]
    · have := congrArg List.length hsame
      simp only [List.length_append] at this
      simp only [List.length_drop]
      omega
  by_cases hcur : cur = []
  · subst hcur
    simp only [List.length_nil, Nat.cast_zero, List.nil_append] at hc hd
    cases rest with
    | nil =>
      left
      obtain ⟨cuts1, hr⟩ := readHeader_end st exitCode [] hc (by simpa [wire] using hd) h1 h2
      exact ⟨rfl, rfl, { st with chunk := 0, sock := { data := [], cuts := cuts1 } },
        by simp only [serviceSocket, hr], rfl⟩
    | cons p rest1 =>
      right
      have hp := hrest p (List.mem_cons_self _ _)
      obtain ⟨cuts1, hr⟩ := readHeader_frame st p.length (p ++ wire rest1 exitCode) hc
        (by simpa [wire] using hd) (by omega) (by omega) (by omega)
      exact hforward _ p rest1 hr rfl (List.length_pos.1 hp.1) rfl rfl
        (fun q hq => hrest q (List.mem_cons_of_mem _ hq)) (by simp)
  · right
    have hne : st.chunk ≠ 0 := by
      have := List.length_pos.2 hcur
      omega
    exact hforward st cur rest (readHeader_busy st hne) rfl hcur hc hd hrest rfl

/-! ## The loop on well-formed socket traffic -/

/-- Past `connect`, `main` enters its loop having sent the length of the command line
and the command line. -/
theorem main_connected (argv : List (List Byte)) (stdin sock : InStream) (buffer : List Byte)
    (polls : List PollResult) (hargv : 2 ≤ argv.length) :
    main argv true stdin sock buffer polls =
      mainLoop polls
        { stdin := stdin, sock := sock,
          sent := writeIntBuffer (int32 (commandLine argv).length) ++ commandLine argv,
          stdout := [], buffer := buffer, chunk := 0 } := by
  have hlt : ¬ argv.length < 2 := by omega
  have h4 : ∀ v : Int, (writeIntBuffer v).take 4 = writeIntBuffer v := fun _ => rfl
  simp only [main, hlt, if_false, Bool.not_true, Bool.false_eq_true, writeInt, write, h4,
    List.take_length, List.nil_append]

/-- From a state with `cur` left of the frame in progress and the frames `rest` to come,
a loop whose polls succeed and report the socket readable once per pending payload byte
and once more returns the exit code, having written the pending payload to stdout. -/
theorem mainLoop_delivers (exitCode : Int) (h1 : -2 ^ 31 ≤ exitCode) (h2 : exitCode < 2 ^ 31)
    (polls : List PollResult) :
    ∀ (st : Bridge) (cur : List Byte) (rest : List (List Byte)),
      st.chunk = cur.length → st.sock.data = cur ++ wire rest exitCode →
      (∀ p ∈ rest, 0 < p.length ∧ p.length < 2 ^ 31) →
      (∀ p ∈ polls, p.ret > 0) →
      cur.length + rest.flatten.length + 1 ≤ sockReady polls →
      (mainLoop polls st).1 = Outcome.returned exitCode ∧
        (mainLoop polls st).2.stdout = st.stdout ++ cur ++ rest.flatten := by
  induction polls with
  | nil =>
    intro st cur rest _ _ _ _ hready
    simp [sockReady] at hready
  | cons p polls ih =>
    intro st cur rest hc hd hrest hpolls hready
    have hp : p.ret > 0 := hpolls p (List.mem_cons_self _ _)
    have hpolls1 : ∀ q ∈ polls, q.ret > 0 := fun q hq => hpolls q (List.mem_cons_of_mem _ hq)
    have key : ∀ st0 : Bridge, st0.chunk = st.chunk → st0.sock = st.sock →
        st0.stdout = st.stdout →
        ((if p.sock_POLLIN = true then
            match serviceSocket st0 with
            | (some o, st1) => (o, st1)
            | (none, st1) => mainLoop polls st1
          else mainLoop polls st0).1 = Outcome.returned exitCode ∧
         (if p.sock_POLLIN = true then
            match serviceSocket st0 with
            | (some o, st1) => (o, st1)
            | (none, st1) => mainLoop polls st1
          else mainLoop polls st0).2.stdout = st.stdout ++ cur ++ rest.flatten) := by
      intro st0 e1 e2 e3
      by_cases hs : p.sock_POLLIN = true
      · simp only [hs, if_true]
        simp only [sockReady, hs, if_true] at hready
        rcases serviceSocket_spec st0 cur rest exitCode (by rw [e1, hc]) (by rw [e2, hd])
          hrest h1 h2 with ⟨hcur, hnil, st1, hsv, hout⟩ | ⟨st1, cur1, rest1, hsv, hc1, hd1, hr1, hout, hlt⟩
        · subst hcur hnil
          simp only [hsv, hout, e3, List.append_nil, List.flatten_nil, and_self]
        · simp only [hsv]
          have := ih st1 cur1 rest1 hc1 hd1 hr1 hpolls1 (by omega)
          rw [this.1, this.2, hout, e3]
          exact ⟨rfl, rfl⟩
      · simp only [hs, Bool.false_eq_true, if_false]
        simp only [sockReady, hs] at hready
        have := ih st0 cur rest (by rw [e1, hc]) (by rw [e2, hd]) hrest hpolls1 (by
          simpa using hready)
        rw [this.1, this.2, e3]
        exact ⟨rfl, rfl⟩
    simp only [mainLoop, hp, if_true]
    by_cases hi : p.stdin_POLLIN = true
    · simp only [hi, if_true]
      exact key (serviceStdin st) rfl rfl rfl
    · simp only [hi]
      exact key st rfl rfl rfl

/-- C8: inbound framing. For payloads of positive length (below 2^31) sent as frames,
then a zero length and the exit code, under any fragmentation of the reads and
whatever happens on stdin, the bridge writes exactly the payloads, in order, to its
stdout and returns the exit code, as soon as `poll` has reported the socket readable
once per payload byte and once more. -/
theorem bridge_relays_frames (argv : List (List Byte)) (payloads : List (List Byte))
    (exitCode : Int) (stdin : InStream) (cuts : List Nat) (buffer : List Byte)
    (polls : List PollResult)
    (hargv : 2 ≤ argv.length)
    (hpay : ∀ p ∈ payloads, 0 < p.length ∧ p.length < 2 ^ 31)
    (h1 : -2 ^ 31 ≤ exitCode) (h2 : exitCode < 2 ^ 31)
    (hpolls : ∀ p ∈ polls, p.ret > 0)
    (hready : payloads.flatten.length + 1 ≤ sockReady polls) :
    (main argv true stdin { data := wire payloads exitCode, cuts := cuts } buffer polls).1 =
      Outcome.returned exitCode ∧
    (main argv true stdin { data := wire payloads exitCode, cuts := cuts } buffer polls).2.stdout =
      payloads.flatten := by
  rw [main_connected argv stdin _ buffer polls hargv]
  have := mainLoop_delivers exitCode h1 h2 polls
    { stdin := stdin, sock := { data := wire payloads exitCode, cuts := cuts },
      sent := writeIntBuffer (int32 (commandLine argv).length) ++ commandLine argv,
      stdout := [], buffer := buffer, chunk := 0 }
    [] payloads rfl rfl hpay hpolls (by simpa using hready)
  simpa using this

/-- Witness for C8: the frame `hi`, a zero length and exit code 7, read one byte at a
time, give `hi` on stdout and exit code 7. -/
theorem bridge_relays_frames_witness :
    (main [[98], [49]] true { data := [120], cuts := [] }
      { data := wire [[104, 105]] 7, cuts := [1, 1, 1, 1, 1, 1] } []
      [⟨1, true, true⟩, ⟨1, false, true⟩, ⟨2, true, true⟩]).1 = Outcome.returned 7 ∧
    (main [[98], [49]] true { data := [120], cuts := [] }
      { data := wire [[104, 105]] 7, cuts := [1, 1, 1, 1, 1, 1] } []
      [⟨1, true, true⟩, ⟨1, false, true⟩, ⟨2, true, true⟩]).2.stdout = [104, 105] :=
  bridge_relays_frames [[98], [49]] [[104, 105]] 7 { data := [120], cuts := [] }
    [1, 1, 1, 1, 1, 1] [] [⟨1, true, true⟩, ⟨1, false, true⟩, ⟨2, true, true⟩]
    (by decide) (by decide) (by decide) (by decide) (by decide) (by decide)

/-! ## The command frame and the stdin direction -/

theorem intercalate_cons_eq (sep a : List Byte) (rest : List (List Byte)) :
    List.intercalate sep (a :: rest) = a ++ (rest.map fun x => sep ++ x).flatten := by
  induction rest generalizing a with
  | nil => simp [List.intercalate]
  | cons b l ih =>
    have := ih b
    simp only [List.intercalate] at this ⊢
    simp only [List.intersperse, List.flatten_cons, List.map_cons, this, List.append_assoc]

theorem cmdLoop_later (args : List (List Byte)) :
    ∀ (i : Nat) (cmd : List Byte), 2 < i →
      cmdLoop i args cmd = cmd ++ (args.map fun x => [32] ++ x).flatten := by
  induction args with
  | nil => intro i cmd _; simp [cmdLoop]
  | cons a rest ih =>
    intro i cmd hi
    have hgt : i > 2 := hi
    simp only [cmdLoop, hgt, if_true, List.map_cons, List.flatten_cons]
    rw [ih (i + 1) _ (by omega)]
    simp only [List.append_assoc]

/-- The loop of `main` joins the trailing arguments with single spaces. -/
theorem commandLine_eq (argv : List (List Byte)) :
    commandLine argv = List.intercalate [32] (argv.drop 2) := by
  unfold commandLine
  cases argv.drop 2 with
  | nil => simp [cmdLoop, List.intercalate]
  | cons a rest =>
    rw [intercalate_cons_eq]
    simp only [cmdLoop, gt_iff_lt, Nat.lt_irrefl, if_false, List.nil_append]
    exact cmdLoop_later rest 3 a (by omega)

/-- The bytes of `writeInt` depend on the low 32 bits of the value only. -/
theorem writeIntBuffer_int32 (n : Int) : writeIntBuffer (int32 n) = writeIntBuffer n := by
  simp only [writeIntBuffer, lowByte, int32, List.cons.injEq, Fin.mk.injEq, and_true]
  refine ⟨?_, ?_, ?_, ?_⟩ <;> omega

theorem readHeader_frame_cond (st : Bridge) :
    (readHeader st).2.sent = st.sent ∧ (readHeader st).2.stdin = st.stdin := by
  simp only [readHeader]
  split
  · cases readInt st.sock with
    | none => exact ⟨rfl, rfl⟩
    | some x =>
      obtain ⟨chunk, fd⟩ := x
      simp only
      split
      · cases readInt fd with
        | none => exact ⟨rfl, rfl⟩
        | some y => exact ⟨rfl, rfl⟩
      · exact ⟨rfl, rfl⟩
  · exact ⟨rfl, rfl⟩

theorem forwardChunk_frame_cond (st : Bridge) :
    (forwardChunk st).2.sent = st.sent ∧ (forwardChunk st).2.stdin = st.stdin := by
  simp only [forwardChunk]
  split <;> (split <;> exact ⟨rfl, rfl⟩)

/-- The socket branch neither writes to the socket nor reads stdin. -/
theorem serviceSocket_frame_cond (st : Bridge) :
    (serviceSocket st).2.sent = st.sent ∧ (serviceSocket st).2.stdin = st.stdin := by
  have hh := readHeader_frame_cond st
  unfold serviceSocket
  cases hr : readHeader st with
  | mk o st0 =>
    rw [hr] at hh
    cases o with
    | some o => exact hh
    | none =>
      have hf := forwardChunk_frame_cond st0
      exact ⟨hf.1.trans hh.1, hf.2.trans hh.2⟩

/-- The stdin branch writes to the socket exactly the bytes it takes off stdin. -/
theorem serviceStdin_spec (st : Bridge) :
    ∃ got, (serviceStdin st).sent = st.sent ++ got ∧
      st.stdin.data = got ++ (serviceStdin st).stdin.data := by
  obtain ⟨r, _, hr2, _, hr4, hr5⟩ := read_spec st.stdin 8192
  refine ⟨st.stdin.data.take r, ?_, ?_⟩
  · simp only [serviceStdin, write, hr4]
    have hlen : (st.stdin.data.take r).length = r := by simp [List.length_take]; omega
    rw [hlen]
    have := List.take_left (st.stdin.data.take r) (st.buffer.drop r)
    rw [hlen] at this
    rw [this]
  · simp only [serviceStdin, hr5, List.take_append_drop]

/-- At every point of the loop, what has been written to the socket since it started
is what has been read from stdin since then. -/
theorem mainLoop_forwards (polls : List PollResult) :
    ∀ st : Bridge, ∃ fwd, (mainLoop polls st).2.sent = st.sent ++ fwd ∧
      st.stdin.data = fwd ++ (mainLoop polls st).2.stdin.data := by
  induction polls with
  | nil => intro st; exact ⟨[], by simp [mainLoop], by simp [mainLoop]⟩
  | cons p polls ih =>
    intro st
    by_cases hp : p.ret > 0
    · have key : ∀ st0 : Bridge, ∃ fwd,
          (if p.sock_POLLIN = true then
            match serviceSocket st0 with
            | (some o, st1) => (o, st1)
            | (none, st1) => mainLoop polls st1
          else mainLoop polls st0).2.sent = st0.sent ++ fwd ∧
          st0.stdin.data = fwd ++
            (if p.sock_POLLIN = true then
              match serviceSocket st0 with
              | (some o, st1) => (o, st1)
              | (none, st1) => mainLoop polls st1
            else mainLoop polls st0).2.stdin.data := by
        intro st0
        by_cases hs : p.sock_POLLIN = true
        · simp only [hs, if_true]
          have hf := serviceSocket_frame_cond st0
          cases hsv : serviceSocket st0 with
          | mk o st1 =>
            rw [hsv] at hf
            have hf1 : st1.sent = st0.sent := hf.1
            have hf2 : st1.stdin = st0.stdin := hf.2
            cases o with
            | some o => exact ⟨[], by simp [hf1], by simp [hf2]⟩
            | none =>
              obtain ⟨fwd, h1, h2⟩ := ih st1
              exact ⟨fwd, by simp only [h1, hf1], by simp only [← h2, hf2]⟩
        · simp only [hs, Bool.false_eq_true, if_false]
          exact ih st0
      simp only [mainLoop, hp, if_true]
      by_cases hi : p.stdin_POLLIN = true
      · simp only [hi, if_true]
        obtain ⟨got, hg1, hg2⟩ := serviceStdin_spec st
        obtain ⟨fwd, h1, h2⟩ := key (serviceStdin st)
        refine ⟨got ++ fwd, ?_, ?_⟩
        · rw [h1, hg1, List.append_assoc]
        · rw [hg2, h2, List.append_assoc]
      · simp only [hi, Bool.false_eq_true, if_false]
        exact key st
    · exact ⟨[], by simp [mainLoop, hp], by simp [mainLoop, hp]⟩

/-- What `main` has sent when it got past `connect`: the command frame, then what the
loop forwarded from stdin. -/
theorem main_sent (argv : List (List Byte)) (stdin sock : InStream) (buffer : List Byte)
    (polls : List PollResult) (hargv : 2 ≤ argv.length) :
    ∃ fwd, (main argv true stdin sock buffer polls).2.sent =
        writeIntBuffer (List.intercalate [32] (argv.drop 2)).length ++
          List.intercalate [32] (argv.drop 2) ++ fwd ∧
      stdin.data = fwd ++ (main argv true stdin sock buffer polls).2.stdin.data := by
  obtain ⟨fwd, h1, h2⟩ := mainLoop_forwards polls
    { stdin := stdin, sock := sock,
      sent := writeIntBuffer (int32 (commandLine argv).length) ++ commandLine argv,
      stdout := [], buffer := buffer, chunk := 0 }
  rw [main_connected argv stdin sock buffer polls hargv]
  refine ⟨fwd, ?_, h2⟩
  rw [h1, writeIntBuffer_int32, commandLine_eq]

/-- C9: outbound command frame. Once connected, the first bytes the bridge sends are
the four bytes `writeInt` makes of the length of `cmd`, then the bytes of `cmd`, where
`cmd` is `argv[2 ..]` joined with single spaces (empty when there is no trailing
argument); `readInt` decodes those four bytes back to the length of `cmd`, however the
reads are fragmented. -/
theorem bridge_sends_command_frame (argv : List (List Byte)) (stdin sock : InStream)
    (buffer : List Byte) (polls : List PollResult) (hargv : 2 ≤ argv.length)
    (hlen : (List.intercalate [32] (argv.drop 2)).length < 2 ^ 31) :
    (∃ rest, (main argv true stdin sock buffer polls).2.sent =
      writeIntBuffer (List.intercalate [32] (argv.drop 2)).length ++
        List.intercalate [32] (argv.drop 2) ++ rest) ∧
    (argv.length = 2 → List.intercalate [32] (argv.drop 2) = []) ∧
    (∀ (tail : List Byte) (cuts : List Nat), ∃ cuts1,
      readInt { data := writeIntBuffer (List.intercalate [32] (argv.drop 2)).length ++ tail,
                cuts := cuts } =
        some (((List.intercalate [32] (argv.drop 2)).length : Int),
          { data := tail, cuts := cuts1 })) := by
  refine ⟨?_, ?_, ?_⟩
  · obtain ⟨fwd, h, _⟩ := main_sent argv stdin sock buffer polls hargv
    exact ⟨fwd, h⟩
  · intro h2
    have : argv.drop 2 = [] := by
      apply List.eq_nil_of_length_eq_zero
      simp [h2]
    rw [this]
    rfl
  · intro tail cuts
    exact readInt_writeIntBuffer _ (by omega) (by exact_mod_cast hlen) tail cuts

/-- Witness for C9: the arguments `ls -l` are sent as length 5 and `ls -l`. -/
theorem bridge_sends_command_frame_witness :
    ∃ rest, (main [[98], [49], [108, 115], [45, 108]] true { data := [], cuts := [] }
        { data := [], cuts := [] } [] []).2.sent =
      writeIntBuffer (List.intercalate [32] ([[98], [49], [108, 115], [45, 108]].drop 2)).length ++
        List.intercalate [32] ([[98], [49], [108, 115], [45, 108]].drop 2) ++ rest :=
  (bridge_sends_command_frame [[98], [49], [108, 115], [45, 108]] { data := [], cuts := [] }
    { data := [], cuts := [] } [] [] (by decide) (by decide)).1

/-- C10, as stated, fails: stdin supplies the bytes 97 and 98 in two reads; the first
is forwarded, then the zero-length frame and exit code 7 are serviced and `main`
returns; the byte 98 is never written to the socket. -/
theorem bridge_returns_with_stdin_unread :
    (main [[98], [49]] true { data := [97, 98], cuts := [1, 1] }
      { data := wire [] 7, cuts := [] } [] [⟨1, true, true⟩]).1 = Outcome.returned 7 ∧
    (main [[98], [49]] true { data := [97, 98], cuts := [1, 1] }
      { data := wire [] 7, cuts := [] } [] [⟨1, true, true⟩]).2.sent =
        writeIntBuffer 0 ++ [] ++ [97] ∧
    (main [[98], [49]] true { data := [97, 98], cuts := [1, 1] }
      { data := wire [] 7, cuts := [] } [] [⟨1, true, true⟩]).2.sent ≠
        writeIntBuffer 0 ++ [] ++ [97, 98] := by
  decide

/-- The socket branch ends `main` only by returning or by blocking in `readInt`. -/
theorem serviceSocket_not_polling (st st1 : Bridge) (o : Outcome)
    (h : serviceSocket st = (some o, st1)) : o ≠ Outcome.polling := by
  unfold serviceSocket at h
  cases hr : readHeader st with
  | mk o0 st0 =>
    rw [hr] at h
    cases o0 with
    | none =>
      have hnone : (forwardChunk st0).1 = none := by
        simp only [forwardChunk]
        split <;> (split <;> rfl)
      have h0 : forwardChunk st0 = (some o, st1) := h
      rw [h0] at hnone
      exact absurd hnone (by simp)
    | some o0 =>
      simp only [Prod.mk.injEq, Option.some.injEq] at h
      rw [← h.1]
      simp only [readHeader] at hr
      split at hr
      · cases hi : readInt st.sock with
        | none =>
          rw [hi] at hr
          simp only [Prod.mk.injEq, Option.some.injEq] at hr
          rw [← hr.1]
          simp
        | some x =>
          obtain ⟨chunk, fd⟩ := x
          rw [hi] at hr
          simp only at hr
          split at hr
          · cases hj : readInt fd with
            | none =>
              rw [hj] at hr
              simp only [Prod.mk.injEq, Option.some.injEq] at hr
              rw [← hr.1]
              simp
            | some y =>
              rw [hj] at hr
              simp only [Prod.mk.injEq, Option.some.injEq] at hr
              rw [← hr.1]
              simp
          · simp at hr
      · simp at hr

/-- A loop that is still polling after `polls` goes on with the next poll results from
the state it has reached. -/
theorem mainLoop_append (polls more : List PollResult) :
    ∀ st : Bridge, (mainLoop polls st).1 = Outcome.polling →
      mainLoop (polls ++ more) st = mainLoop more (mainLoop polls st).2 := by
  induction polls with
  | nil => intro st _; rfl
  | cons p polls ih =>
    intro st h
    by_cases hp : p.ret > 0
    · simp only [List.cons_append, mainLoop, hp, if_true] at h ⊢
      by_cases hs : p.sock_POLLIN = true
      · simp only [hs, if_true] at h ⊢
        cases hsv : serviceSocket (if p.stdin_POLLIN = true then serviceStdin st else st) with
        | mk o st1 =>
          rw [hsv] at h
          cases o with
          | some o => exact absurd h (serviceSocket_not_polling _ _ _ hsv)
          | none => exact ih st1 h
      · simp only [hs, Bool.false_eq_true, if_false] at h ⊢
        exact ih _ h
    · simp [mainLoop, hp] at h

/-- One round in which `poll` reports stdin readable: what one `read` of at most 8192
bytes takes off stdin is added to what has been written to the socket, whether or not
the socket is serviced in the same round. -/
theorem mainLoop_round_stdin (p : PollResult) (st : Bridge) (hp : p.ret > 0)
    (hi : p.stdin_POLLIN = true) :
    (mainLoop [p] st).2.sent = st.sent ++ (read st.stdin 8192).1 ∧
      (mainLoop [p] st).2.stdin = (read st.stdin 8192).2 := by
  have hsent : (serviceStdin st).sent = st.sent ++ (read st.stdin 8192).1 := by
    obtain ⟨r, _, hr2, _, hr4, _⟩ := read_spec st.stdin 8192
    simp only [serviceStdin, write, hr4]
    have hlen : (st.stdin.data.take r).length = r := by simp [List.length_take]; omega
    rw [hlen]
    have := List.take_left (st.stdin.data.take r) (st.buffer.drop r)
    rw [hlen] at this
    rw [this]
  have hin : (serviceStdin st).stdin = (read st.stdin 8192).2 := rfl
  simp only [mainLoop, hp, hi, if_true]
  by_cases hs : p.sock_POLLIN = true
  · simp only [hs, if_true]
    have hf := serviceSocket_frame_cond (serviceStdin st)
    cases hsv : serviceSocket (serviceStdin st) with
    | mk o st1 =>
      rw [hsv] at hf
      cases o with
      | some o => exact ⟨hf.1.trans hsent, hf.2.trans hin⟩
      | none => exact ⟨hf.1.trans hsent, hf.2.trans hin⟩
  · simp only [hs, Bool.false_eq_true, if_false]
    exact ⟨hsent, hin⟩

/-- A loop still polling after stdin was reported readable at least once per pending
byte has read stdin to its end. -/
theorem mainLoop_drains (polls : List PollResult) :
    ∀ st : Bridge, (mainLoop polls st).1 = Outcome.polling →
      st.stdin.data.length ≤ stdinReady polls → (mainLoop polls st).2.stdin.data = [] := by
  induction polls with
  | nil =>
    intro st _ hlen
    exact List.eq_nil_of_length_eq_zero (Nat.le_zero.1 hlen)
  | cons p polls ih =>
    intro st h hlen
    by_cases hp : p.ret > 0
    · have hstep : (if p.stdin_POLLIN = true then serviceStdin st else st).stdin.data.length ≤
          stdinReady polls := by
        by_cases hi : p.stdin_POLLIN = true
        · simp only [hi, if_true]
          simp only [stdinReady, hi, if_true] at hlen
          obtain ⟨r, _, _, hr3, _, hr5⟩ := read_spec st.stdin 8192
          have hin : (serviceStdin st).stdin = (read st.stdin 8192).2 := rfl
          rw [hin, hr5]
          simp only [List.length_drop]
          by_cases hne : st.stdin.data = []
          · simp [hne]
          · have := hr3 hne (by decide)
            omega
        · simp only [hi, Bool.false_eq_true, if_false]
          simp only [stdinReady, hi, Bool.false_eq_true, if_false] at hlen
          omega
      simp only [mainLoop, hp, if_true] at h ⊢
      by_cases hs : p.sock_POLLIN = true
      · simp only [hs, if_true] at h ⊢
        have hf := serviceSocket_frame_cond (if p.stdin_POLLIN = true then serviceStdin st else st)
        cases hsv : serviceSocket (if p.stdin_POLLIN = true then serviceStdin st else st) with
        | mk o st1 =>
          rw [hsv] at h hf
          cases o with
          | some o => exact absurd h (serviceSocket_not_polling _ _ _ hsv)
          | none =>
            have hf2 : st1.stdin = (if p.stdin_POLLIN = true then serviceStdin st else st).stdin :=
              hf.2
            exact ih st1 h (by rw [hf2]; exact hstep)
      · simp only [hs, Bool.false_eq_true, if_false] at h ⊢
        exact ih _ h hstep
    · simp [mainLoop, hp] at h

/-- C10, amended: the bytes the relay has written to the socket after the command frame
are at every point of a run exactly the bytes it has read from stdin, a front part of
the supplied sequence, unmodified and in order, nothing lost or duplicated, whatever
the division into reads and whatever is serviced on the socket in between. Every round
of a running loop in which `poll` reports stdin readable takes one `read` of at most
8192 bytes off stdin, at least one byte when any is pending, and writes exactly those
bytes to the socket. So a loop still running after stdin was reported readable once per
supplied byte has forwarded the whole sequence, as has any run that has read stdin to
its end: only bytes not yet read when `main` ends are left out. -/
theorem bridge_forwards_stdin_read (argv : List (List Byte)) (stdin sock : InStream)
    (buffer : List Byte) (polls : List PollResult) (hargv : 2 ≤ argv.length) :
    (∃ fwd, (main argv true stdin sock buffer polls).2.sent =
        writeIntBuffer (List.intercalate [32] (argv.drop 2)).length ++
          List.intercalate [32] (argv.drop 2) ++ fwd ∧
      stdin.data = fwd ++ (main argv true stdin sock buffer polls).2.stdin.data) ∧
    (∀ p : PollResult, (main argv true stdin sock buffer polls).1 = Outcome.polling →
      p.ret > 0 → p.stdin_POLLIN = true →
      (main argv true stdin sock buffer (polls ++ [p])).2.sent =
        (main argv true stdin sock buffer polls).2.sent ++
          (read (main argv true stdin sock buffer polls).2.stdin 8192).1 ∧
      (main argv true stdin sock buffer polls).2.stdin.data =
        (read (main argv true stdin sock buffer polls).2.stdin 8192).1 ++
          (main argv true stdin sock buffer (polls ++ [p])).2.stdin.data ∧
      ((main argv true stdin sock buffer polls).2.stdin.data ≠ [] →
        (read (main argv true stdin sock buffer polls).2.stdin 8192).1 ≠ [])) ∧
    ((main argv true stdin sock buffer polls).1 = Outcome.polling →
      stdin.data.length ≤ stdinReady polls →
      (main argv true stdin sock buffer polls).2.sent =
        writeIntBuffer (List.intercalate [32] (argv.drop 2)).length ++
          List.intercalate [32] (argv.drop 2) ++ stdin.data) ∧
    ((main argv true stdin sock buffer polls).2.stdin.data = [] →
      (main argv true stdin sock buffer polls).2.sent =
        writeIntBuffer (List.intercalate [32] (argv.drop 2)).length ++
          List.intercalate [32] (argv.drop 2) ++ stdin.data) := by
  obtain ⟨fwd, h1, h2⟩ := main_sent argv stdin sock buffer polls hargv
  have hall : (main argv true stdin sock buffer polls).2.stdin.data = [] →
      (main argv true stdin sock buffer polls).2.sent =
        writeIntBuffer (List.intercalate [32] (argv.drop 2)).length ++
          List.intercalate [32] (argv.drop 2) ++ stdin.data := by
    intro hnil
    rw [hnil, List.append_nil] at h2
    rw [h1, h2]
  refine ⟨⟨fwd, h1, h2⟩, ?_, ?_, hall⟩
  · intro p hrun hp hi
    have hmore := main_connected argv stdin sock buffer (polls ++ [p]) hargv
    rw [main_connected argv stdin sock buffer polls hargv] at hrun ⊢
    rw [hmore, mainLoop_append polls [p] _ hrun]
    obtain ⟨hs1, hs2⟩ := mainLoop_round_stdin p (mainLoop polls
      { stdin := stdin, sock := sock,
        sent := writeIntBuffer (int32 (commandLine argv).length) ++ commandLine argv,
        stdout := [], buffer := buffer, chunk := 0 }).2 hp hi
    obtain ⟨r, _, _, hr3, hr4, hr5⟩ := read_spec (mainLoop polls
      { stdin := stdin, sock := sock,
        sent := writeIntBuffer (int32 (commandLine argv).length) ++ commandLine argv,
        stdout := [], buffer := buffer, chunk := 0 }).2.stdin 8192
    refine ⟨hs1, ?_, ?_⟩
    · rw [hs2, hr4, hr5, List.take_append_drop]
    · intro hne
      have hpos := hr3 hne (by decide)
      rw [hr4]
      intro hnil
      have hz := congrArg List.length hnil
      simp only [List.length_take, List.length_nil] at hz
      omega
  · intro hrun hlen
    apply hall
    rw [main_connected argv stdin sock buffer polls hargv] at hrun ⊢
    exact mainLoop_drains polls _ hrun hlen

/-- Witness for C10, amended: three bytes on stdin read as 1 + 2 while a frame is
serviced on the socket in between; the second round forwards the two bytes it reads,
and all three bytes have then been sent. -/
theorem bridge_forwards_stdin_read_witness :
    (main [[98], [49]] true { data := [97, 98, 99], cuts := [1, 2] }
      { data := wire [[104]] 7, cuts := [] } [] ([⟨1, true, true⟩] ++ [⟨1, true, false⟩])).2.sent =
      (main [[98], [49]] true { data := [97, 98, 99], cuts := [1, 2] }
        { data := wire [[104]] 7, cuts := [] } [] [⟨1, true, true⟩]).2.sent ++
        (read (main [[98], [49]] true { data := [97, 98, 99], cuts := [1, 2] }
          { data := wire [[104]] 7, cuts := [] } [] [⟨1, true, true⟩]).2.stdin 8192).1 ∧
    (main [[98], [49]] true { data := [97, 98, 99], cuts := [1, 2] }
      { data := wire [[104]] 7, cuts := [] } [] [⟨1, true, true⟩, ⟨1, true, false⟩]).2.sent =
      writeIntBuffer (List.intercalate [32] ([[98], [49]].drop 2)).length ++
        List.intercalate [32] ([[98], [49]].drop 2) ++ [97, 98, 99] :=
  ⟨((bridge_forwards_stdin_read [[98], [49]] { data := [97, 98, 99], cuts := [1, 2] }
      { data := wire [[104]] 7, cuts := [] } [] [⟨1, true, true⟩]
      (by decide)).2.1 ⟨1, true, false⟩ (by decide) (by decide) rfl).1,
   (bridge_forwards_stdin_read [[98], [49]] { data := [97, 98, 99], cuts := [1, 2] }
      { data := wire [[104]] 7, cuts := [] } [] [⟨1, true, true⟩, ⟨1, true, false⟩]
      (by decide)).2.2.2 (by decide)⟩

end bash_bridge

namespace deploy

/-! ## The paths through `main` -/

theorem Fail_eq (status : InstallerStatus) (workspace : Workspace) (message : String) :
    Fail status workspace message =
      (EXIT_FAILURE,
        { response := { workspace.response with status := some status },
          log := workspace.log ++ [MainEvent.set_status status, MainEvent.ErrEvent message,
            MainEvent.SendResponse { workspace.response with status := some status }] }) := by
  simp [Fail, Workspace.perform, MainEvent.effect]

theorem returned_fst (r : Int × Workspace) : (returned r).1 = some r.1 := rfl

theorem returned_snd (r : Int × Workspace) : (returned r).2 = r.2 := rfl

theorem sentResponses_append (a b : List MainEvent) :
    sentResponses (a ++ b) = sentResponses a ++ sentResponses b := by
  induction a with
  | nil => rfl
  | cons e es ih => cases e <;> simp [sentResponses, ih]

theorem reported_append (a b : List MainEvent) :
    reported (a ++ b) = reported a ++ reported b := by
  induction a with
  | nil => rfl
  | cons e es ih => cases e <;> simp [reported, ih]

theorem setup_event (e : MainEvent) (h : e.isSetup = true) (es : List MainEvent) :
    sentResponses (e :: es) = sentResponses es ∧ reported (e :: es) = reported es ∧
      e.touchesCommand = false := by
  cases e <;> first
    | exact ⟨rfl, rfl, rfl⟩
    | exact absurd h (by simp [MainEvent.isSetup])

/-- The set-up actions send nothing, report nothing and touch no command. -/
theorem setup_silent (evs : List MainEvent) (h : ∀ e ∈ evs, e.isSetup = true) :
    sentResponses evs = [] ∧ reported evs = [] ∧ ∀ e ∈ evs, e.touchesCommand = false := by
  induction evs with
  | nil => exact ⟨rfl, rfl, fun _ h => by simp at h⟩
  | cons e es ih =>
    obtain ⟨e1, e2, e3⟩ := setup_event e (h e (List.mem_cons_self _ _)) es
    obtain ⟨h1, h2, h3⟩ := ih fun x hx => h x (List.mem_cons_of_mem _ hx)
    refine ⟨e1.trans h1, e2.trans h2, ?_⟩
    intro x hx
    rcases List.mem_cons.1 hx with hx | hx
    · rw [hx]; exact e3
    · exact h3 x hx

/-- Lines 181 to 199 of `main` leave the response alone and add set-up actions only. -/
theorem applyEnvironment_spec (parameters : Parameters) (workspace : Workspace) :
    ∃ evs, applyEnvironment parameters workspace =
        { response := workspace.response, log := workspace.log ++ evs } ∧
      ∀ e ∈ evs, e.isSetup = true := by
  refine ⟨parameters.cmd_path.toList.map MainEvent.CmdCommand_SetPath ++
    parameters.pm_path.toList.map MainEvent.PackageManager_SetPath ++
    (match parameters.shell, parameters.shell_arg with
      | some shell, some shell_arg => [MainEvent.SetExecutor shell shell_arg]
      | _, _ => []) ++
    parameters.root_directory.toList.map MainEvent.SetRoot, ?_, ?_⟩
  · obtain ⟨bn, cn, cmd, pm, ver, sh, sha, root, consumed⟩ := parameters
    cases cmd <;> cases pm <;> cases sh <;> cases sha <;> cases root <;>
      simp [applyEnvironment, Workspace.perform, MainEvent.effect]
  · obtain ⟨bn, cn, cmd, pm, ver, sh, sha, root, consumed⟩ := parameters
    cases cmd <;> cases pm <;> cases sh <;> cases sha <;> cases root <;>
      simp [MainEvent.isSetup]

/-- When `ParseParameters` returns true it has written nothing to `std::cerr`. -/
theorem ParseParametersLoop_cerr (args : List String) :
    ∀ parameters : Parameters, (ParseParametersLoop args parameters).1 = true →
      (ParseParametersLoop args parameters).2.2 = [] := by
  induction args with
  | nil => intro _ _; rfl
  | cons arg rest ih =>
    intro parameters h
    simp only [ParseParametersLoop] at h ⊢
    split_ifs at h ⊢ <;> first | exact ih _ h | rfl

theorem ParseParameters_cerr (argv0 : String) (args : List String)
    (hparse : (ParseParameters argv0 args).1 = true) : (ParseParameters argv0 args).2.2 = [] :=
  ParseParametersLoop_cerr args _ hparse

/-- Without any argument `main` fails with the usage text. -/
theorem main_no_argument (env : MainEnv) (argv0 : String) :
    main env argv0 [] =
      returned (Fail InstallerStatus.ERROR_PARAMETER {} (GetStringUsage argv0)) := by
  simp [main]

/-- When `ParseParameters` returns false `main` fails with the usage text. -/
theorem main_parse_failed (env : MainEnv) (argv0 : String) (args : List String)
    (hargs : args ≠ []) (hparse : (ParseParameters argv0 args).1 = false) :
    main env argv0 args =
      returned (Fail InstallerStatus.ERROR_PARAMETER
        { log := (ParseParameters argv0 args).2.2.map MainEvent.cerr } (GetStringUsage argv0)) := by
  have hlen : ¬ args.length + 1 < 2 := by
    have := List.length_pos.2 hargs
    omega
  simp [main, hlen, hparse]

/-- When the requested version differs from the embedded one `main` fails before any
command is looked up. -/
theorem main_wrong_version (env : MainEnv) (argv0 : String) (args : List String)
    (hargs : args ≠ []) (hparse : (ParseParameters argv0 args).1 = true)
    (hversion : versionMismatch env (ParseParameters argv0 args).2.1 = true) :
    main env argv0 args =
      returned (Fail InstallerStatus.ERROR_WRONG_VERSION
        (applyEnvironment (ParseParameters argv0 args).2.1 {})
        ("Version mismatch. Requested:" ++ (ParseParameters argv0 args).2.1.version.getD "" ++
          "but have " ++ env.GetVersion)) := by
  have hlen : ¬ args.length + 1 < 2 := by
    have := List.length_pos.2 hargs
    omega
  simp [main, hlen, hparse, hversion, ParseParameters_cerr argv0 args hparse]

/-- With parameters parsed and the version accepted `main` goes on to the dispatch. -/
theorem main_dispatches (env : MainEnv) (argv0 : String) (args : List String)
    (hargs : args ≠ []) (hparse : (ParseParameters argv0 args).1 = true)
    (hversion : versionMismatch env (ParseParameters argv0 args).2.1 = false) :
    main env argv0 args =
      dispatch env (ParseParameters argv0 args).2.1
        ((argv0 :: args).drop (ParseParameters argv0 args).2.1.consumed)
        (applyEnvironment (ParseParameters argv0 args).2.1 {}) := by
  have hlen : ¬ args.length + 1 < 2 := by
    have := List.length_pos.2 hargs
    omega
  simp [main, hlen, hparse, hversion, ParseParameters_cerr argv0 args hparse]

/-! ## Claims about `main` -/

/-- What is observed when `Fail` ends a run whose earlier actions were set-up actions
and `tail`. -/
theorem Fail_after_setup (status : InstallerStatus) (message : String)
    (evs tail : List MainEvent) (response : InstallerResponse)
    (hsetup : ∀ e ∈ evs, e.isSetup = true)
    (htail : sentResponses tail = [] ∧ reported tail = []) :
    (Fail status { response := response, log := [] ++ evs ++ tail } message).1 = EXIT_FAILURE ∧
    (Fail status { response := response, log := [] ++ evs ++ tail } message).2.response =
      { response with status := some status } ∧
    sentResponses (Fail status { response := response, log := [] ++ evs ++ tail } message).2.log =
      [{ response with status := some status }] ∧
    reported (Fail status { response := response, log := [] ++ evs ++ tail } message).2.log =
      [message] := by
  obtain ⟨h1, h2, _⟩ := setup_silent evs hsetup
  rw [Fail_eq]
  refine ⟨rfl, rfl, ?_, ?_⟩
  · simp only [sentResponses_append, h1, htail.1, List.nil_append]
    rfl
  · simp only [reported_append, h2, htail.2, List.nil_append]
    rfl

theorem dispatch_unknown (env : MainEnv) (parameters : Parameters) (args : List String)
    (workspace : Workspace) (hnone : env.GetCommand parameters.command_name = none) :
    dispatch env parameters args workspace =
      returned (Fail InstallerStatus.ERROR_CMD
        (workspace.perform (MainEvent.GetCommand parameters.command_name)) "Unknown command") := by
  simp [dispatch, hnone]

/-- C14: when the dispatcher yields no command for the verb, `main` fails with status
`ERROR_CMD` and a non-zero exit code, and nothing that comes after the lookup happens:
no `ParseParameters`, no `Workspace::Valid`, no `Run`, no action of any command. -/
theorem main_unknown_verb (env : MainEnv) (argv0 : String) (args : List String) (verb : String)
    (hparse : (ParseParameters argv0 args).1 = true)
    (hverb : (ParseParameters argv0 args).2.1.command_name = some verb)
    (hversion : versionMismatch env (ParseParameters argv0 args).2.1 = false)
    (hnone : env.GetCommand (some verb) = none) :
    (main env argv0 args).1 = some EXIT_FAILURE ∧ (main env argv0 args).1 ≠ some 0 ∧
    (main env argv0 args).2.response.status = some InstallerStatus.ERROR_CMD ∧
    sentResponses (main env argv0 args).2.log = [(main env argv0 args).2.response] ∧
    reported (main env argv0 args).2.log = ["Unknown command"] ∧
    ∀ e ∈ (main env argv0 args).2.log, e.afterLookup = false := by
  have hargs : args ≠ [] := by
    intro h
    rw [h] at hverb
    simp [ParseParameters, ParseParametersLoop] at hverb
  obtain ⟨evs, hevs, hsetup⟩ := applyEnvironment_spec (ParseParameters argv0 args).2.1 {}
  rw [← hverb] at hnone
  rw [main_dispatches env argv0 args hargs hparse hversion, dispatch_unknown _ _ _ _ hnone,
    hevs]
  simp only [returned_fst, returned_snd, Workspace.perform, MainEvent.effect]
  obtain ⟨h1, h2, h3, h4⟩ := Fail_after_setup InstallerStatus.ERROR_CMD "Unknown command" evs
    [MainEvent.GetCommand (ParseParameters argv0 args).2.1.command_name]
    ({} : Workspace).response hsetup ⟨rfl, rfl⟩
  have hlog : ({} : Workspace).log ++ evs ++
      [MainEvent.GetCommand (ParseParameters argv0 args).2.1.command_name] =
      [] ++ evs ++ [MainEvent.GetCommand (ParseParameters argv0 args).2.1.command_name] := rfl
  rw [hlog]
  refine ⟨by rw [h1], by rw [h1]; decide, by rw [h2], by rw [h3, h2], h4, ?_⟩
  rw [Fail_eq]
  intro e he
  simp only [List.nil_append, List.mem_append, List.mem_cons, List.mem_singleton,
    List.not_mem_nil, or_false] at he
  rcases he with (he | he) | he | he | he
  · have := (setup_silent evs hsetup).2.2 e he
    cases e <;> simp_all [MainEvent.touchesCommand, MainEvent.afterLookup]
  · subst he; rfl
  · subst he; rfl
  · subst he; rfl
  · subst he; rfl

/-- Witness for C14: the verb `bogus` with a dispatcher that knows no command. -/
theorem main_unknown_verb_witness :
    (main ⟨"1", fun _ => none, fun _ => true⟩ "installer" ["-root=/tmp", "bogus"]).2.response.status =
      some InstallerStatus.ERROR_CMD :=
  (main_unknown_verb ⟨"1", fun _ => none, fun _ => true⟩ "installer" ["-root=/tmp", "bogus"]
    "bogus" (by decide) (by decide) (by decide) rfl).2.2.1

/-- With the binary name alone `main` reports the usage text, sends a response with
status `ERROR_PARAMETER` and returns `EXIT_FAILURE`. -/
theorem main_binary_name_only (env : MainEnv) (argv0 : String) :
    (main env argv0 []).1 = some EXIT_FAILURE ∧
    (main env argv0 []).2.response.status = some InstallerStatus.ERROR_PARAMETER ∧
    sentResponses (main env argv0 []).2.log = [(main env argv0 []).2.response] ∧
    reported (main env argv0 []).2.log = [GetStringUsage argv0] := by
  rw [main_no_argument, Fail_eq]
  exact ⟨rfl, rfl, rfl, rfl⟩

theorem afterLookup_of_touchesCommand (e : MainEvent) (h : e.touchesCommand = false) :
    e.afterLookup = false := by
  cases e <;> first | rfl | exact absurd h (by simp [MainEvent.touchesCommand, MainEvent.afterLookup])

/-- A name that starts with `-shell-arg` starts with `-shell`. -/
theorem strncmp_shell_arg (name : String) (h : strncmp_eq "-shell-arg" name 10 = true) :
    strncmp_eq "-shell" name 6 = true := by
  simp only [strncmp_eq, beq_iff_eq] at h ⊢
  have := congrArg (List.take 6) h
  simp only [List.take_take] at this
  exact this

/-- A flag before the verb whose name starts with none of the accepted texts makes
`ParseParameters` return false. -/
theorem ParseParametersLoop_rejects (args : List String) :
    ∀ parameters : Parameters,
      (∃ arg ∈ leadingFlags args, acceptedName (flagName arg) = false) →
      (ParseParametersLoop args parameters).1 = false := by
  induction args with
  | nil => intro _ h; simp [leadingFlags] at h
  | cons a rest ih =>
    intro parameters h
    obtain ⟨arg, harg, hbad⟩ := h
    by_cases hd : a.data.head? = some '-'
    · have hlead : leadingFlags (a :: rest) = a :: leadingFlags rest := by
        simp [leadingFlags, List.takeWhile_cons, hd]
      rw [hlead] at harg
      by_cases ha : acceptedName (flagName a) = true
      · have hrest : ∃ arg ∈ leadingFlags rest, acceptedName (flagName arg) = false := by
          rcases List.mem_cons.1 harg with h1 | h1
          · rw [h1, ha] at hbad
            exact absurd hbad (by decide)
          · exact ⟨arg, h1, hbad⟩
        simp only [ParseParametersLoop, hd, if_true]
        split_ifs
        · exact ih _ hrest
        · exact ih _ hrest
        · exact ih _ hrest
        · exact ih _ hrest
        · exact ih _ hrest
        · exact ih _ hrest
        · rfl
      · have ha2 : acceptedName (flagName a) = false := by simpa using ha
        simp only [acceptedName, Bool.or_eq_false_iff] at ha2
        obtain ⟨⟨⟨⟨h1, h2⟩, h3⟩, h4⟩, h5⟩ := ha2
        have h6 : strncmp_eq "-shell-arg" (flagName a) 10 = false := by
          cases h : strncmp_eq "-shell-arg" (flagName a) 10 with
          | false => rfl
          | true => rw [strncmp_shell_arg _ h] at h3; exact absurd h3 (by decide)
        simp [ParseParametersLoop, hd, h1, h2, h3, h4, h5, h6]
    · have hlead : leadingFlags (a :: rest) = [] := by
        simp [leadingFlags, List.takeWhile_cons, hd]
      rw [hlead] at harg
      simp at harg

/-- C13, as stated, fails: the flag `-pmx=/bin/pm` has the name `-pmx`, which is none of
`-cmd`, `-pm`, `-shell`, `-shell-arg`, `-root`, `-version`, yet `ParseParameters`
compares only its first three characters with `-pm`, returns true with `/bin/pm` as
the path of the package manager, and `main` goes on to look up the command `dump`. -/
theorem main_accepts_flag_by_its_start :
    flagName "-pmx=/bin/pm" = "-pmx" ∧
    "-pmx" ∉ ["-cmd", "-pm", "-shell", "-shell-arg", "-root", "-version"] ∧
    (ParseParameters "installer" ["-pmx=/bin/pm", "dump"]).1 = true ∧
    (ParseParameters "installer" ["-pmx=/bin/pm", "dump"]).2.1.pm_path = some "/bin/pm" ∧
    MainEvent.GetCommand (some "dump") ∈
      (main ⟨"1", fun _ => none, fun _ => true⟩ "installer" ["-pmx=/bin/pm", "dump"]).2.log ∧
    (main ⟨"1", fun _ => none, fun _ => true⟩ "installer"
      ["-pmx=/bin/pm", "dump"]).2.response.status ≠ some InstallerStatus.ERROR_PARAMETER := by
  decide

/-- A flag whose name starts with one of the accepted texts is taken by one of the
branches of the loop, which goes on with the next argument; the requested version
changes only in the branch of `-version`. -/
theorem ParseParametersLoop_accepted (a : String) (rest : List String) (parameters : Parameters)
    (hd : a.data.head? = some '-') (ha : acceptedName (flagName a) = true) :
    ∃ next : Parameters,
      ParseParametersLoop (a :: rest) parameters = ParseParametersLoop rest next ∧
      (strncmp_eq "-version" (flagName a) 8 = false → next.version = parameters.version) := by
  simp only [ParseParametersLoop, hd, if_true]
  split_ifs with h1 h2 h3 h4 h5 h6
  · exact ⟨_, rfl, fun _ => rfl⟩
  · exact ⟨_, rfl, fun _ => rfl⟩
  · exact ⟨_, rfl, fun _ => rfl⟩
  · exact ⟨_, rfl, fun _ => rfl⟩
  · exact ⟨_, rfl, fun h => absurd (h5.symm.trans h) (by decide)⟩
  · exact ⟨_, rfl, fun _ => rfl⟩
  · simp [acceptedName, h1, h2, h4, h5, h6] at ha

theorem leadingFlags_flag (a : String) (rest : List String) (hd : a.data.head? = some '-') :
    leadingFlags (a :: rest) = a :: leadingFlags rest := by
  simp [leadingFlags, List.takeWhile_cons, hd]

theorem leadingFlags_verb (a : String) (rest : List String) (hd : ¬ a.data.head? = some '-') :
    leadingFlags (a :: rest) = [] := by
  simp [leadingFlags, List.takeWhile_cons, hd]

/-- When the name of every flag before the verb starts with one of the accepted texts,
`ParseParameters` returns true; when moreover none of them starts with `-version`, the
requested version is left as it was. -/
theorem ParseParametersLoop_accepts (args : List String) :
    ∀ parameters : Parameters,
      (∀ arg ∈ leadingFlags args, acceptedName (flagName arg) = true) →
      (ParseParametersLoop args parameters).1 = true ∧
      ((∀ arg ∈ leadingFlags args, strncmp_eq "-version" (flagName arg) 8 = false) →
        (ParseParametersLoop args parameters).2.1.version = parameters.version) := by
  induction args with
  | nil => intro _ _; exact ⟨rfl, fun _ => rfl⟩
  | cons a rest ih =>
    intro parameters h
    by_cases hd : a.data.head? = some '-'
    · rw [leadingFlags_flag a rest hd] at h ⊢
      obtain ⟨next, hstep, hver⟩ :=
        ParseParametersLoop_accepted a rest parameters hd (h a (List.mem_cons_self _ _))
      obtain ⟨ih1, ih2⟩ := ih next fun x hx => h x (List.mem_cons_of_mem _ hx)
      rw [hstep]
      refine ⟨ih1, fun hv => ?_⟩
      rw [ih2 fun x hx => hv x (List.mem_cons_of_mem _ hx)]
      exact hver (hv a (List.mem_cons_self _ _))
    · have hverb : ParseParametersLoop (a :: rest) parameters =
          (true, { parameters with command_name := some a,
                                   consumed := parameters.consumed + 1 }, []) := by
        simp only [ParseParametersLoop, hd, if_false]
      rw [hverb]
      exact ⟨rfl, fun _ => rfl⟩

/-- C13, amended: `ParseParameters` returns false exactly when some argument before the
verb starts with `-` and its name (the text before `=`) starts with none of `-cmd`,
`-pm`, `-shell`, `-root`, `-version`; whenever it returns false, `main` reports the
usage text, sends a response with status `ERROR_PARAMETER` and returns a non-zero
code, without looking up, parsing or running any command. -/
theorem main_rejects_unknown_flag (env : MainEnv) (argv0 : String) (args : List String) :
    ((ParseParameters argv0 args).1 = false ↔
      ∃ arg ∈ leadingFlags args, acceptedName (flagName arg) = false) ∧
    ((∃ arg ∈ leadingFlags args, acceptedName (flagName arg) = false) →
      (main env argv0 args).1 = some EXIT_FAILURE ∧ (main env argv0 args).1 ≠ some 0 ∧
      (main env argv0 args).2.response.status = some InstallerStatus.ERROR_PARAMETER ∧
      sentResponses (main env argv0 args).2.log = [(main env argv0 args).2.response] ∧
      reported (main env argv0 args).2.log = [GetStringUsage argv0] ∧
      ∀ e ∈ (main env argv0 args).2.log, e.touchesCommand = false) := by
  have hiff : (ParseParameters argv0 args).1 = false ↔
      ∃ arg ∈ leadingFlags args, acceptedName (flagName arg) = false := by
    constructor
    · intro hfalse
      by_contra hno
      have hall : ∀ arg ∈ leadingFlags args, acceptedName (flagName arg) = true := by
        intro arg harg
        cases h : acceptedName (flagName arg) with
        | true => rfl
        | false => exact absurd ⟨arg, harg, h⟩ hno
      have htrue : (ParseParameters argv0 args).1 = true :=
        (ParseParametersLoop_accepts args _ hall).1
      rw [htrue] at hfalse
      exact absurd hfalse (by decide)
    · exact ParseParametersLoop_rejects args _
  refine ⟨hiff, fun hbad => ?_⟩
  have hparse : (ParseParameters argv0 args).1 = false := hiff.2 hbad
  have hargs : args ≠ [] := by
    intro h
    rw [h] at hbad
    simp [leadingFlags] at hbad
  have hcerr : ∀ texts : List String,
      sentResponses (texts.map MainEvent.cerr) = [] ∧ reported (texts.map MainEvent.cerr) = [] := by
    intro texts
    induction texts with
    | nil => exact ⟨rfl, rfl⟩
    | cons t ts ih => exact ⟨ih.1, ih.2⟩
  rw [main_parse_failed env argv0 args hargs hparse, Fail_eq]
  rw [returned_fst, returned_snd]
  have hexit : some EXIT_FAILURE ≠ some (0 : Int) := by decide
  refine ⟨rfl, hexit, rfl, ?_, ?_, ?_⟩
  · simp only [sentResponses_append, (hcerr _).1, List.nil_append]
    rfl
  · simp only [reported_append, (hcerr _).2, List.nil_append]
    rfl
  · intro e he
    simp only [List.mem_append, List.mem_map, List.mem_cons, List.mem_singleton,
      List.not_mem_nil, or_false] at he
    rcases he with ⟨t, _, he⟩ | he | he | he
    · subst he; rfl
    · subst he; rfl
    · subst he; rfl
    · subst he; rfl

/-- Witness for C13, amended: the flag `-foo=1` after a recognised flag. -/
theorem main_rejects_unknown_flag_witness :
    (ParseParameters "installer" ["-root=/tmp", "-foo=1", "dump"]).1 = false ∧
    (main ⟨"1", fun _ => none, fun _ => true⟩ "installer"
      ["-root=/tmp", "-foo=1", "dump"]).2.response.status =
        some InstallerStatus.ERROR_PARAMETER :=
  ⟨(main_rejects_unknown_flag ⟨"1", fun _ => none, fun _ => true⟩ "installer"
      ["-root=/tmp", "-foo=1", "dump"]).1.2 ⟨"-foo=1", by decide, by decide⟩,
   ((main_rejects_unknown_flag ⟨"1", fun _ => none, fun _ => true⟩ "installer"
      ["-root=/tmp", "-foo=1", "dump"]).2 ⟨"-foo=1", by decide, by decide⟩).2.2.1⟩

/-! ## The flag `-version` -/

theorem version_flag_data (X : String) :
    ("-version=" ++ X).data = '-' :: 'v' :: 'e' :: 'r' :: 's' :: 'i' :: 'o' :: 'n' :: '=' :: X.data := by
  rw [String.data_append]
  rfl

theorem version_flag_name (X : String) : flagName ("-version=" ++ X) = "-version" := by
  apply String.ext
  simp only [flagName, version_flag_data]
  simp [List.takeWhile_cons]

/-- The value of the flag `-version=X` is `X` when `X` is not empty and holds no `=`. -/
theorem version_flag_value (X : String) (hne : X.data ≠ []) (heq : '=' ∉ X.data) :
    flagValue ("-version=" ++ X) = some X := by
  have htake : X.data.takeWhile (fun c => c != '=') = X.data := by
    rw [List.takeWhile_eq_self_iff]
    intro c hc
    simp only [bne_iff_ne, ne_eq]
    intro e
    exact heq (e ▸ hc)
  have hdrop : X.data.dropWhile (fun c => c == '=') = X.data := by
    cases hX : X.data with
    | nil => rfl
    | cons c cs =>
      have : c ≠ '=' := fun e => heq (by rw [hX, e]; exact List.mem_cons_self _ _)
      simp [List.dropWhile_cons, this]
  have hemp : X.data.isEmpty = false := by
    cases hX : X.data with
    | nil => exact absurd hX hne
    | cons c cs => rfl
  have h1 : (strtok ("-version=" ++ X).data).2 = X.data := by
    rw [version_flag_data]
    simp [strtok, List.dropWhile_cons, List.takeWhile_cons]
  unfold flagValue
  rw [h1]
  simp only [strtok, hdrop, hemp, htake, Bool.false_eq_true, if_false, Option.map_some']

/-- The flag `-version=X` with a non-empty `X` that holds no `=` is taken by the branch
of `-version`, which stores `X` and goes on with the next argument. -/
theorem ParseParametersLoop_version (X : String) (rest : List String) (parameters : Parameters)
    (hne : X.data ≠ []) (heq : '=' ∉ X.data) :
    ParseParametersLoop (("-version=" ++ X) :: rest) parameters =
      ParseParametersLoop rest
        { parameters with version := some X, consumed := parameters.consumed + 1 } := by
  have hhead : ("-version=" ++ X).data.head? = some '-' := by
    rw [version_flag_data]
    rfl
  have h1 : strncmp_eq "-cmd" "-version" 4 = false := by decide
  have h2 : strncmp_eq "-pm" "-version" 3 = false := by decide
  have h3 : strncmp_eq "-shell-arg" "-version" 10 = false := by decide
  have h4 : strncmp_eq "-shell" "-version" 6 = false := by decide
  have h5 : strncmp_eq "-version" "-version" 8 = true := by decide
  simp only [ParseParametersLoop, hhead, if_true, version_flag_name, h1, h2, h3,
    h4, h5, Bool.false_eq_true, if_false, version_flag_value X hne heq]

/-- Flags whose names start with accepted texts are passed one after the other. -/
theorem ParseParametersLoop_prefix (pre rest : List String)
    (hpre : ∀ a ∈ pre, a.data.head? = some '-' ∧ acceptedName (flagName a) = true) :
    ∀ parameters : Parameters, ∃ next : Parameters,
      ParseParametersLoop (pre ++ rest) parameters = ParseParametersLoop rest next := by
  induction pre with
  | nil => intro parameters; exact ⟨parameters, rfl⟩
  | cons a pre ih =>
    intro parameters
    obtain ⟨hd, ha⟩ := hpre a (List.mem_cons_self _ _)
    obtain ⟨mid, hstep, _⟩ := ParseParametersLoop_accepted a (pre ++ rest) parameters hd ha
    obtain ⟨next, hnext⟩ := ih (fun x hx => hpre x (List.mem_cons_of_mem _ hx)) mid
    exact ⟨next, by rw [List.cons_append, hstep, hnext]⟩

/-- C11, as stated, fails for two kinds of requested version. With `-version=` (the
empty version) and the embedded version `2`, `strtok` finds no value, the version
stays null and `main` goes on to look up the command. With `-version=2=3` and the
embedded version `2`, the value ends at the second `=`, the versions compare equal and
`main` goes on as well. It fails also for what stands beside the flag: with
`-version=1 -version=2` the later flag replaces the requested version, which then equals
the embedded `2`; with the unknown flag `-foo=1` beside it the run ends with status
`ERROR_PARAMETER`. -/
theorem main_version_not_compared :
    (ParseParameters "installer" ["-version=", "dump"]).2.1.version = none ∧
    MainEvent.GetCommand (some "dump") ∈
      (main ⟨"2", fun _ => none, fun _ => true⟩ "installer" ["-version=", "dump"]).2.log ∧
    (main ⟨"2", fun _ => none, fun _ => true⟩ "installer"
      ["-version=", "dump"]).2.response.status ≠ some InstallerStatus.ERROR_WRONG_VERSION ∧
    (ParseParameters "installer" ["-version=2=3", "dump"]).2.1.version = some "2" ∧
    MainEvent.GetCommand (some "dump") ∈
      (main ⟨"2", fun _ => none, fun _ => true⟩ "installer" ["-version=2=3", "dump"]).2.log ∧
    (main ⟨"2", fun _ => none, fun _ => true⟩ "installer"
      ["-version=2=3", "dump"]).2.response.status ≠ some InstallerStatus.ERROR_WRONG_VERSION ∧
    (ParseParameters "installer" ["-version=1", "-version=2", "dump"]).2.1.version = some "2" ∧
    (main ⟨"2", fun _ => none, fun _ => true⟩ "installer"
      ["-version=1", "-version=2", "dump"]).2.response.status ≠
        some InstallerStatus.ERROR_WRONG_VERSION ∧
    (main ⟨"2", fun _ => none, fun _ => true⟩ "installer"
      ["-foo=1", "-version=1", "dump"]).2.response.status =
        some InstallerStatus.ERROR_PARAMETER := by
  decide

/-- C11, amended: for every requested version `X` and every embedded version `Y` (a
text without NUL) different from `X`, whenever `ParseParameters` accepts the arguments
and leaves `X` as the requested version, `main` returns a non-zero code after sending a
response with status `ERROR_WRONG_VERSION` and reporting a message that contains both
`X` and `Y`; no command is looked up, parsed or run. `ParseParameters` does so for the
flag `-version=X` with `X` not empty and without `=`, standing among the flags before
the verb, when the name of every flag before the verb starts with one of `-cmd`, `-pm`,
`-shell`, `-version`, `-root` and no flag between it and the verb starts with
`-version`. -/
theorem main_version_mismatch (env : MainEnv) (argv0 X : String)
    (hnul : Char.ofNat 0 ∉ env.GetVersion.data) (hdiff : env.GetVersion ≠ X) :
    (∀ args : List String, (ParseParameters argv0 args).1 = true →
      (ParseParameters argv0 args).2.1.version = some X →
      (main env argv0 args).1 = some EXIT_FAILURE ∧ (main env argv0 args).1 ≠ some 0 ∧
      (main env argv0 args).2.response.status = some InstallerStatus.ERROR_WRONG_VERSION ∧
      sentResponses (main env argv0 args).2.log = [(main env argv0 args).2.response] ∧
      (∃ message, reported (main env argv0 args).2.log = [message] ∧
        X.data <:+: message.data ∧ env.GetVersion.data <:+: message.data) ∧
      ∀ e ∈ (main env argv0 args).2.log, e.touchesCommand = false) ∧
    (∀ pre post : List String, X.data ≠ [] → '=' ∉ X.data →
      (∀ a ∈ pre, a.data.head? = some '-' ∧ acceptedName (flagName a) = true) →
      (∀ a ∈ leadingFlags post, acceptedName (flagName a) = true ∧
        strncmp_eq "-version" (flagName a) 8 = false) →
      (ParseParameters argv0 (pre ++ ("-version=" ++ X) :: post)).1 = true ∧
      (ParseParameters argv0 (pre ++ ("-version=" ++ X) :: post)).2.1.version = some X) := by
  refine ⟨fun args hparse hver => ?_, fun pre post hne heq hpre hpost => ?_⟩
  · have hargs : args ≠ [] := by
      intro h
      rw [h] at hver
      simp [ParseParameters, ParseParametersLoop] at hver
    have hcstr : c_str env.GetVersion = env.GetVersion.data := by
      unfold c_str
      rw [List.takeWhile_eq_self_iff]
      intro c hc
      simp only [bne_iff_ne, ne_eq]
      intro e
      exact hnul (e ▸ hc)
    have hmis : versionMismatch env (ParseParameters argv0 args).2.1 = true := by
      simp only [versionMismatch, hver, hcstr, bne_iff_ne, ne_eq]
      intro e
      exact hdiff (String.ext e.symm)
    obtain ⟨evs, hevs, hsetup⟩ := applyEnvironment_spec (ParseParameters argv0 args).2.1 {}
    rw [main_wrong_version env argv0 args hargs hparse hmis, hevs, hver]
    rw [returned_fst, returned_snd]
    obtain ⟨h1, h2, h3, h4⟩ := Fail_after_setup InstallerStatus.ERROR_WRONG_VERSION
      ("Version mismatch. Requested:" ++ (some X).getD "" ++ "but have " ++ env.GetVersion)
      evs [] ({} : Workspace).response hsetup ⟨rfl, rfl⟩
    have hlog : ({} : Workspace).log ++ evs = [] ++ evs ++ [] := by simp
    rw [hlog]
    have hexit : some EXIT_FAILURE ≠ some (0 : Int) := by decide
    refine ⟨by rw [h1], by rw [h1]; exact hexit, by rw [h2], by rw [h3, h2], ⟨_, h4, ?_, ?_⟩, ?_⟩
    · refine ⟨"Version mismatch. Requested:".data, "but have ".data ++ env.GetVersion.data, ?_⟩
      simp [String.data_append]
    · refine ⟨"Version mismatch. Requested:".data ++ X.data ++ "but have ".data, [], ?_⟩
      simp [String.data_append]
    · rw [Fail_eq]
      intro e he
      simp only [List.nil_append, List.append_nil, List.mem_append, List.mem_cons,
        List.mem_singleton, List.not_mem_nil, or_false] at he
      rcases he with he | he | he | he
      · exact (setup_silent evs hsetup).2.2 e he
      · subst he; rfl
      · subst he; rfl
      · subst he; rfl
  · obtain ⟨mid, hmid⟩ := ParseParametersLoop_prefix pre (("-version=" ++ X) :: post) hpre
      { binary_name := some argv0, consumed := 1 }
    obtain ⟨hp1, hp2⟩ := ParseParametersLoop_accepts post
      { mid with version := some X, consumed := mid.consumed + 1 } fun a ha => (hpost a ha).1
    unfold ParseParameters
    rw [hmid, ParseParametersLoop_version X post mid hne heq]
    exact ⟨hp1, hp2 fun a ha => (hpost a ha).2⟩

/-- Witness for C11, amended: version `1` requested between two other flags, version
`2` embedded. -/
theorem main_version_mismatch_witness :
    (ParseParameters "installer"
      (["-root=/tmp"] ++ ("-version=" ++ "1") :: ["-pm=/bin/pm", "dump"])).2.1.version =
        some "1" ∧
    (main ⟨"2", fun _ => none, fun _ => true⟩ "installer"
      ["-root=/tmp", "-version=1", "-pm=/bin/pm", "dump"]).2.response.status =
        some InstallerStatus.ERROR_WRONG_VERSION :=
  ⟨((main_version_mismatch ⟨"2", fun _ => none, fun _ => true⟩ "installer" "1"
      (by decide) (by decide)).2 ["-root=/tmp"] ["-pm=/bin/pm", "dump"]
      (by decide) (by decide) (by decide) (by decide)).2,
   ((main_version_mismatch ⟨"2", fun _ => none, fun _ => true⟩ "installer" "1"
      (by decide) (by decide)).1 ["-root=/tmp", "-version=1", "-pm=/bin/pm", "dump"]
      (by decide) (by decide)).2.2.1⟩

/-! ## Commands that are not ready, and commands that run -/

theorem mem_Fail (status : InstallerStatus) (workspace : Workspace) (message : String)
    (e : MainEvent) (h : e ∈ (Fail status workspace message).2.log) :
    e ∈ workspace.log ∨ e = MainEvent.set_status status ∨ e = MainEvent.ErrEvent message ∨
      e = MainEvent.SendResponse { workspace.response with status := some status } := by
  rw [Fail_eq] at h
  simpa [List.mem_append] using h

theorem mem_applyEnvironment (parameters : Parameters) (workspace : Workspace) (e : MainEvent)
    (h : e ∈ (applyEnvironment parameters workspace).log) :
    e ∈ workspace.log ∨ e.isSetup = true := by
  obtain ⟨evs, hevs, hsetup⟩ := applyEnvironment_spec parameters workspace
  rw [hevs] at h
  rcases List.mem_append.1 h with h | h
  · exact Or.inl h
  · exact Or.inr (hsetup e h)

theorem dispatch_not_ready (env : MainEnv) (parameters : Parameters) (args : List String)
    (workspace : Workspace) (task : Command) (verb : String)
    (hcmd : env.GetCommand parameters.command_name = some task)
    (hverb : parameters.command_name = some verb)
    (hready : (parseCommand task args
      (workspace.perform (MainEvent.GetCommand parameters.command_name))).1.ready_to_run_ =
        false) :
    dispatch env parameters args workspace =
      returned (Fail InstallerStatus.ERROR_PARAMETER
        (parseCommand task args
          (workspace.perform (MainEvent.GetCommand parameters.command_name))).2
        ("Command " ++ verb ++ ": wrong parameters")) := by
  simp only [dispatch, hcmd, hready, Bool.not_false, if_true]
  rw [hverb]

/-- A command found under a null name that is not ready: the process is killed while
the message is built, after the command has parsed its parameters. -/
theorem dispatch_killed (env : MainEnv) (parameters : Parameters) (args : List String)
    (workspace : Workspace) (task : Command)
    (hcmd : env.GetCommand parameters.command_name = some task)
    (hnull : parameters.command_name = none)
    (hready : (parseCommand task args
      (workspace.perform (MainEvent.GetCommand parameters.command_name))).1.ready_to_run_ =
        false) :
    dispatch env parameters args workspace =
      (none, (parseCommand task args
        (workspace.perform (MainEvent.GetCommand parameters.command_name))).2) := by
  simp only [dispatch, hcmd, hready, Bool.not_false, if_true]
  rw [hnull]

theorem dispatch_invalid (env : MainEnv) (parameters : Parameters) (args : List String)
    (workspace : Workspace) (task : Command)
    (hcmd : env.GetCommand parameters.command_name = some task)
    (hready : (parseCommand task args
      (workspace.perform (MainEvent.GetCommand parameters.command_name))).1.ready_to_run_ =
        true)
    (hvalid : env.Valid (parseCommand task args
      (workspace.perform (MainEvent.GetCommand parameters.command_name))).2.log = false) :
    dispatch env parameters args workspace =
      returned (Fail InstallerStatus.ERROR_CMD
        ((parseCommand task args
          (workspace.perform (MainEvent.GetCommand parameters.command_name))).2.perform
            MainEvent.Valid)
        "Bad workspace") := by
  simp [dispatch, hcmd, hready, hvalid]

theorem dispatch_runs (env : MainEnv) (parameters : Parameters) (args : List String)
    (workspace : Workspace) (task : Command)
    (hcmd : env.GetCommand parameters.command_name = some task)
    (hready : (parseCommand task args
      (workspace.perform (MainEvent.GetCommand parameters.command_name))).1.ready_to_run_ =
        true)
    (hvalid : env.Valid (parseCommand task args
      (workspace.perform (MainEvent.GetCommand parameters.command_name))).2.log = true) :
    dispatch env parameters args workspace =
      returned (runCommand
        (parseCommand task args
          (workspace.perform (MainEvent.GetCommand parameters.command_name))).1
        ((parseCommand task args
          (workspace.perform (MainEvent.GetCommand parameters.command_name))).2.perform
            MainEvent.Valid)) := by
  simp [dispatch, hcmd, hready, hvalid]

/-- What `parseCommand` leaves: the response as the command left it, and a log grown
by the call, the actions of the command and the readiness question. -/
theorem parseCommand_spec (task : Command) (args : List String) (workspace : Workspace) :
    (parseCommand task args workspace).1 =
      (task.ParseParameters args { response := workspace.response, log := [] }).1 ∧
    (parseCommand task args workspace).2 =
      { response := (task.ParseParameters args
          { response := workspace.response, log := [] }).2.response,
        log := workspace.log ++ ([MainEvent.ParseParameters args] ++
          ((task.ParseParameters args
            { response := workspace.response, log := [] }).2.log.map MainEvent.command ++
          [MainEvent.ReadyToRun])) } := by
  simp [parseCommand, Workspace.perform, Workspace.leave, Workspace.enter, MainEvent.effect]

theorem DeltaPreinstallCommand_read_failed (input : StdinEnv) (w : World)
    (hr : input.Read.1 = false) :
    DeltaPreinstallCommand.ParseParameters input {} w =
      ({}, w.perform (Event.ErrEvent "Unable to read data on stdin.")) := by
  simp [DeltaPreinstallCommand.ParseParameters, hr]

theorem DeltaPreinstallCommand_parse_failed (input : StdinEnv) (w : World)
    (hr : input.Read.1 = true) (hp : (input.ParseFromString input.Read.2).1 = false) :
    DeltaPreinstallCommand.ParseParameters input {} w =
      ({ request_ := (input.ParseFromString input.Read.2).2, ready_to_run_ := false },
        w.perform (Event.ErrEvent "Unable to parse protobuffer request object.")) := by
  simp [DeltaPreinstallCommand.ParseParameters, hr, hp]

theorem DeltaPreinstallCommand_parsed (input : StdinEnv) (w : World)
    (hr : input.Read.1 = true) (hp : (input.ParseFromString input.Read.2).1 = true) :
    DeltaPreinstallCommand.ParseParameters input {} w =
      ({ request_ := (input.ParseFromString input.Read.2).2, ready_to_run_ := true }, w) := by
  simp [DeltaPreinstallCommand.ParseParameters, hr, hp]

/-- `DeltaPreinstallCommand::ParseParameters` sets the readiness flag exactly when both
the read and the parse succeed; it leaves the response alone and does nothing but
report an error. -/
theorem DeltaPreinstallCommand_ready (input : StdinEnv) (w : World) :
    ((DeltaPreinstallCommand.ParseParameters input {} w).1.ready_to_run_ = true ↔
      (input.Read.1 = true ∧ (input.ParseFromString input.Read.2).1 = true)) ∧
    (DeltaPreinstallCommand.ParseParameters input {} w).2.response = w.response ∧
    ((DeltaPreinstallCommand.ParseParameters input {} w).1.ready_to_run_ = true →
      (DeltaPreinstallCommand.ParseParameters input {} w).1.request_ =
        (input.ParseFromString input.Read.2).2 ∧
      (DeltaPreinstallCommand.ParseParameters input {} w).2 = w) ∧
    ∀ e ∈ (DeltaPreinstallCommand.ParseParameters input {} w).2.log,
      e ∈ w.log ∨ ∃ message, e = Event.ErrEvent message := by
  have hmem : ∀ (message : String) (e : Event),
      e ∈ (w.perform (Event.ErrEvent message)).log → e ∈ w.log ∨ ∃ m, e = Event.ErrEvent m := by
    intro message e he
    rcases List.mem_append.1 he with he | he
    · exact Or.inl he
    · exact Or.inr ⟨_, List.mem_singleton.1 he⟩
  cases hr : input.Read.1 with
  | false =>
    rw [DeltaPreinstallCommand_read_failed input w hr]
    exact ⟨by simp, rfl, by simp, hmem _⟩
  | true =>
    cases hp : (input.ParseFromString input.Read.2).1 with
    | false =>
      rw [DeltaPreinstallCommand_parse_failed input w hr hp]
      exact ⟨by simp, rfl, by simp, hmem _⟩
    | true =>
      rw [DeltaPreinstallCommand_parsed input w hr hp]
      exact ⟨by simp, rfl, by simp, fun e he => Or.inl he⟩

/-- C15: `DeltaPreinstallCommand::ParseParameters` makes the command ready exactly when
both the read from stdin and the parse succeed. When either fails, `main` returns a
non-zero code with status `ERROR_PARAMETER` without validating the workspace and
without calling `Run`: no session is opened and the delta-install response stays
unset. -/
theorem main_delta_not_ready (env : MainEnv) (denv : Env) (input : StdinEnv) (argv0 : String)
    (args : List String) (verb : String)
    (hparse : (ParseParameters argv0 args).1 = true)
    (hverb : (ParseParameters argv0 args).2.1.command_name = some verb)
    (hversion : versionMismatch env (ParseParameters argv0 args).2.1 = false)
    (hcmd : env.GetCommand (some verb) = some (DeltaPreinstallCommand.toCommand denv input))
    (hfail : input.Read.1 = false ∨ (input.ParseFromString input.Read.2).1 = false) :
    (∀ w : World, (DeltaPreinstallCommand.ParseParameters input {} w).1.ready_to_run_ = true ↔
      (input.Read.1 = true ∧ (input.ParseFromString input.Read.2).1 = true)) ∧
    (main env argv0 args).1 = some EXIT_FAILURE ∧ (main env argv0 args).1 ≠ some 0 ∧
    (main env argv0 args).2.response.status = some InstallerStatus.ERROR_PARAMETER ∧
    (main env argv0 args).2.response.deltapreinstall_response = none ∧
    (∀ e ∈ (main env argv0 args).2.log, e ≠ MainEvent.Valid ∧ e ≠ MainEvent.Run ∧
      ∀ options, e ≠ MainEvent.command (Event.CreateInstallSession options)) := by
  have hargs : args ≠ [] := by
    intro h
    rw [h] at hverb
    simp [ParseParameters, ParseParametersLoop] at hverb
  have hexit : some EXIT_FAILURE ≠ some (0 : Int) := by decide
  obtain ⟨evs, hevs, hsetup⟩ := applyEnvironment_spec (ParseParameters argv0 args).2.1 {}
  rw [← hverb] at hcmd
  have hnot : ∀ w : World,
      (DeltaPreinstallCommand.ParseParameters input {} w).1.ready_to_run_ = false := by
    intro w
    cases h : (DeltaPreinstallCommand.ParseParameters input {} w).1.ready_to_run_ with
    | false => rfl
    | true =>
      have := (DeltaPreinstallCommand_ready input w).1.1 h
      rcases hfail with hf | hf
      · rw [this.1] at hf; exact absurd hf (by decide)
      · rw [this.2] at hf; exact absurd hf (by decide)
  refine ⟨fun w => (DeltaPreinstallCommand_ready input w).1, ?_⟩
  have hnot2 : ∀ workspace : Workspace,
      (parseCommand (DeltaPreinstallCommand.toCommand denv input)
        ((argv0 :: args).drop (ParseParameters argv0 args).2.1.consumed)
        workspace).1.ready_to_run_ = false := by
    intro workspace
    rw [(parseCommand_spec _ _ _).1]
    exact hnot _
  rw [main_dispatches env argv0 args hargs hparse hversion,
    dispatch_not_ready env _ _ _ _ verb hcmd hverb (hnot2 _), Fail_eq,
    (parseCommand_spec _ _ _).2]
  rw [returned_fst, returned_snd]
  refine ⟨rfl, hexit, rfl, ?_, ?_⟩
  · simp only [Workspace.perform, MainEvent.effect,
      DeltaPreinstallCommand.toCommand, (DeltaPreinstallCommand_ready input _).2.1, hevs]
  · intro e he
    simp only [Workspace.perform, MainEvent.effect,
      DeltaPreinstallCommand.toCommand, hevs, List.mem_append, List.mem_map, List.mem_cons,
      List.mem_singleton, List.not_mem_nil, or_false, false_or] at he
    simp only [or_assoc] at he
    rcases he with he | he | he | ⟨x, hx, he⟩ | he | he | he | he
    · have := hsetup e he
      refine ⟨?_, ?_, ?_⟩
      · intro h; rw [h] at this; exact absurd this (by decide)
      · intro h; rw [h] at this; exact absurd this (by decide)
      · intro options h; rw [h] at this; exact absurd this (by simp [MainEvent.isSetup])
    · subst he; simp
    · subst he; simp
    · subst he
      rcases (DeltaPreinstallCommand_ready input _).2.2.2 x hx with h | ⟨m, h⟩
      · simp at h
      · subst h; simp
    · subst he; simp
    · subst he; simp
    · subst he; simp
    · subst he; simp

/-- Witness for C15: stdin cannot be read. -/
theorem main_delta_not_ready_witness :
    (main ⟨"1", fun _ => some (DeltaPreinstallCommand.toCommand
        ⟨fun _ => (true, "7"), fun _ => WaitStatus.exited 0⟩
        ⟨(false, ""), fun _ => (true, ⟨"com.app", false, []⟩)⟩), fun _ => true⟩
      "installer" ["deltapreinstall"]).2.response.status =
        some InstallerStatus.ERROR_PARAMETER :=
  (main_delta_not_ready
    ⟨"1", fun _ => some (DeltaPreinstallCommand.toCommand
      ⟨fun _ => (true, "7"), fun _ => WaitStatus.exited 0⟩
      ⟨(false, ""), fun _ => (true, ⟨"com.app", false, []⟩)⟩), fun _ => true⟩
    ⟨fun _ => (true, "7"), fun _ => WaitStatus.exited 0⟩
    ⟨(false, ""), fun _ => (true, ⟨"com.app", false, []⟩)⟩
    "installer" ["deltapreinstall"] "deltapreinstall" (by decide) (by decide) (by decide) rfl
    (Or.inl rfl)).2.2.2.1

theorem sentResponses_map_command (l : List Event) :
    sentResponses (l.map MainEvent.command) = [] := by
  induction l with
  | nil => rfl
  | cons e es ih => exact ih

theorem runCommand_eq (task : ParsedCommand) (workspace : Workspace) :
    runCommand task workspace =
      (EXIT_SUCCESS,
        { response :=
            { (task.Run { response := workspace.response, log := [] }).response with
              status := some InstallerStatus.OK },
          log := workspace.log ++ ([MainEvent.Run] ++
            ((task.Run { response := workspace.response, log := [] }).log.map MainEvent.command ++
            [MainEvent.set_status InstallerStatus.OK,
             MainEvent.SendResponse
               { (task.Run { response := workspace.response, log := [] }).response with
                 status := some InstallerStatus.OK }])) }) := by
  simp [runCommand, Workspace.perform, Workspace.leave, Workspace.enter, MainEvent.effect]

theorem Run_not_setup (evs : List MainEvent) (hsetup : ∀ e ∈ evs, e.isSetup = true) :
    MainEvent.Run ∉ evs := by
  intro h
  exact absurd (hsetup _ h) (by decide)

/-- C16: whenever `main` reaches `Command::Run`, it afterwards sets the top-level
status to `OK`, sends the response once and returns `EXIT_SUCCESS`, whatever `Run`
recorded; when the command is the delta pre-install command and its session-open
fails, the response sent carries the delta-install status `ERROR` under the top-level
status `OK`, and the exit code is still 0. -/
theorem main_after_Run (env : MainEnv) (argv0 : String) (args : List String)
    (hrun : MainEvent.Run ∈ (main env argv0 args).2.log) :
    (main env argv0 args).1 = some EXIT_SUCCESS ∧ (main env argv0 args).1 = some 0 ∧
    (main env argv0 args).2.response.status = some InstallerStatus.OK ∧
    sentResponses (main env argv0 args).2.log = [(main env argv0 args).2.response] ∧
    (∀ (denv : Env) (input : StdinEnv),
      env.GetCommand (ParseParameters argv0 args).2.1.command_name =
        some (DeltaPreinstallCommand.toCommand denv input) →
      (denv.CreateInstallSession
        (sessionOptions (input.ParseFromString input.Read.2).2)).1 = false →
      (main env argv0 args).2.response.deltaStatus = some DeltaStatus.ERROR) := by
  by_cases hargs : args = []
  · subst hargs
    rw [main_no_argument, returned_snd] at hrun
    have := mem_Fail _ _ _ _ hrun
    simp at this
  cases hparse : (ParseParameters argv0 args).1 with
  | false =>
    rw [main_parse_failed env argv0 args hargs hparse, returned_snd] at hrun
    have := mem_Fail _ _ _ _ hrun
    simp at this
  | true =>
    obtain ⟨evs, hevs, hsetup⟩ := applyEnvironment_spec (ParseParameters argv0 args).2.1 {}
    have hA := Run_not_setup evs hsetup
    cases hversion : versionMismatch env (ParseParameters argv0 args).2.1 with
    | true =>
      rw [main_wrong_version env argv0 args hargs hparse hversion, returned_snd, hevs] at hrun
      have := mem_Fail _ _ _ _ hrun
      simp [hA] at this
    | false =>
      rw [main_dispatches env argv0 args hargs hparse hversion, hevs] at hrun ⊢
      cases hcmd : env.GetCommand (ParseParameters argv0 args).2.1.command_name with
      | none =>
        rw [dispatch_unknown _ _ _ _ hcmd, returned_snd] at hrun
        have := mem_Fail _ _ _ _ hrun
        simp [hA, Workspace.perform] at this
      | some task =>
        cases hready : (parseCommand task
            ((argv0 :: args).drop (ParseParameters argv0 args).2.1.consumed)
            (({ response := ({} : Workspace).response,
                log := ({} : Workspace).log ++ evs } : Workspace).perform
              (MainEvent.GetCommand (ParseParameters argv0 args).2.1.command_name))).1.ready_to_run_ with
        | false =>
          cases hname : (ParseParameters argv0 args).2.1.command_name with
          | some verb =>
            rw [dispatch_not_ready _ _ _ _ _ verb hcmd hname hready, returned_snd] at hrun
            have := mem_Fail _ _ _ _ hrun
            rw [(parseCommand_spec _ _ _).2] at this
            simp [hA, Workspace.perform] at this
          | none =>
            rw [dispatch_killed _ _ _ _ _ hcmd hname hready, (parseCommand_spec _ _ _).2] at hrun
            simp [hA, Workspace.perform] at hrun
        | true =>
          cases hvalid : env.Valid (parseCommand task
              ((argv0 :: args).drop (ParseParameters argv0 args).2.1.consumed)
              (({ response := ({} : Workspace).response,
                  log := ({} : Workspace).log ++ evs } : Workspace).perform
                (MainEvent.GetCommand (ParseParameters argv0 args).2.1.command_name))).2.log with
          | false =>
            rw [dispatch_invalid _ _ _ _ _ hcmd hready hvalid, returned_snd] at hrun
            have := mem_Fail _ _ _ _ hrun
            rw [(parseCommand_spec _ _ _).2] at this
            simp [hA, Workspace.perform] at this
          | true =>
            rw [dispatch_runs _ _ _ _ _ hcmd hready hvalid, runCommand_eq]
            rw [returned_fst, returned_snd]
            refine ⟨rfl, rfl, rfl, ?_, ?_⟩
            · rw [(parseCommand_spec _ _ _).2]
              simp only [Workspace.perform, sentResponses_append, sentResponses_map_command,
                (setup_silent evs hsetup).1, List.nil_append, List.append_nil]
              rfl
            · intro denv input hcmd2 hfail
              have htask : task = DeltaPreinstallCommand.toCommand denv input :=
                Option.some.inj hcmd2
              subst htask
              rw [(parseCommand_spec _ _ _).1] at hready ⊢
              have hreq := ((DeltaPreinstallCommand_ready input _).2.2.1 hready).1
              simp only [DeltaPreinstallCommand.toCommand] at hreq ⊢
              rw [hreq, Run_refused denv _ _ hfail]
              simp [InstallerResponse.deltaStatus, responseAfter, Event.effect]

/-- Witness for C16: the delta pre-install command runs, its session-open is refused,
and `main` still returns 0 with top-level status `OK` over the delta-install status
`ERROR`. -/
theorem main_after_Run_witness :
    (main ⟨"1", fun _ => some (DeltaPreinstallCommand.toCommand
        ⟨fun _ => (false, "denied"), fun _ => WaitStatus.exited 0⟩
        ⟨(true, "data"), fun _ => (true, ⟨"com.app", false, []⟩)⟩), fun _ => true⟩
      "installer" ["deltapreinstall"]).1 = some 0 ∧
    (main ⟨"1", fun _ => some (DeltaPreinstallCommand.toCommand
        ⟨fun _ => (false, "denied"), fun _ => WaitStatus.exited 0⟩
        ⟨(true, "data"), fun _ => (true, ⟨"com.app", false, []⟩)⟩), fun _ => true⟩
      "installer" ["deltapreinstall"]).2.response.status = some InstallerStatus.OK ∧
    (main ⟨"1", fun _ => some (DeltaPreinstallCommand.toCommand
        ⟨fun _ => (false, "denied"), fun _ => WaitStatus.exited 0⟩
        ⟨(true, "data"), fun _ => (true, ⟨"com.app", false, []⟩)⟩), fun _ => true⟩
      "installer" ["deltapreinstall"]).2.response.deltaStatus = some DeltaStatus.ERROR :=
  ⟨(main_after_Run _ "installer" ["deltapreinstall"] (by decide)).2.1,
   (main_after_Run _ "installer" ["deltapreinstall"] (by decide)).2.2.1,
   (main_after_Run _ "installer" ["deltapreinstall"] (by decide)).2.2.2.2
     ⟨fun _ => (false, "denied"), fun _ => WaitStatus.exited 0⟩
     ⟨(true, "data"), fun _ => (true, ⟨"com.app", false, []⟩)⟩ rfl rfl⟩

/-! ## Flags without a verb -/

theorem reported_map_command (l : List Event) : reported (l.map MainEvent.command) = [] := by
  induction l with
  | nil => rfl
  | cons e es ih => exact ih

theorem reported_Fail (status : InstallerStatus) (workspace : Workspace) (message : String) :
    reported (Fail status workspace message).2.log = reported workspace.log ++ [message] := by
  rw [Fail_eq]
  simp only [reported_append]
  rfl

theorem reported_parseCommand (task : Command) (args : List String) (workspace : Workspace) :
    reported (parseCommand task args workspace).2.log = reported workspace.log := by
  rw [(parseCommand_spec task args workspace).2]
  simp only [reported_append, reported_map_command]
  have h1 : reported [MainEvent.ParseParameters args] = [] := rfl
  have h2 : reported [MainEvent.ReadyToRun] = [] := rfl
  rw [h1, h2]
  simp

theorem reported_runCommand (task : ParsedCommand) (workspace : Workspace) :
    reported (runCommand task workspace).2.log = reported workspace.log := by
  rw [runCommand_eq]
  simp only [reported_append, reported_map_command]
  have h1 : reported [MainEvent.Run] = [] := rfl
  have h2 : ∀ r : InstallerResponse, reported [MainEvent.set_status InstallerStatus.OK,
      MainEvent.SendResponse r] = [] := fun _ => rfl
  rw [h1, h2]
  simp

theorem log_grows_Fail (status : InstallerStatus) (workspace : Workspace) (message : String)
    (e : MainEvent) (h : e ∈ workspace.log) : e ∈ (Fail status workspace message).2.log := by
  rw [Fail_eq]
  exact List.mem_append_left _ h

theorem log_grows_parseCommand (task : Command) (args : List String) (workspace : Workspace)
    (e : MainEvent) (h : e ∈ workspace.log) : e ∈ (parseCommand task args workspace).2.log := by
  rw [(parseCommand_spec task args workspace).2]
  exact List.mem_append_left _ h

theorem log_grows_runCommand (task : ParsedCommand) (workspace : Workspace)
    (e : MainEvent) (h : e ∈ workspace.log) : e ∈ (runCommand task workspace).2.log := by
  rw [runCommand_eq]
  exact List.mem_append_left _ h

/-- Whatever the dispatcher and the command do, `dispatch` logs the lookup and reports
at most one of its three messages. -/
theorem dispatch_reports (env : MainEnv) (parameters : Parameters) (args : List String)
    (workspace : Workspace) (u : String) (h1 : u ≠ "Unknown command")
    (h2 : ∀ verb, parameters.command_name = some verb →
      u ≠ "Command " ++ verb ++ ": wrong parameters")
    (h3 : u ≠ "Bad workspace") (hu : u ∉ reported workspace.log) :
    MainEvent.GetCommand parameters.command_name ∈
      (dispatch env parameters args workspace).2.log ∧
    u ∉ reported (dispatch env parameters args workspace).2.log := by
  have hlook : MainEvent.GetCommand parameters.command_name ∈
      (workspace.perform (MainEvent.GetCommand parameters.command_name)).log := by
    simp [Workspace.perform]
  have hrep : reported (workspace.perform (MainEvent.GetCommand parameters.command_name)).log =
      reported workspace.log := by
    simp only [Workspace.perform, reported_append]
    have : reported [MainEvent.GetCommand parameters.command_name] = [] := rfl
    rw [this, List.append_nil]
  have hvalidrep : ∀ ws : Workspace,
      reported (ws.perform MainEvent.Valid).log = reported ws.log := by
    intro ws
    simp only [Workspace.perform, reported_append]
    have : reported [MainEvent.Valid] = [] := rfl
    rw [this, List.append_nil]
  have hvalidmem : ∀ (ws : Workspace) (e : MainEvent), e ∈ ws.log →
      e ∈ (ws.perform MainEvent.Valid).log := by
    intro ws e h
    exact List.mem_append_left _ h
  have hout : ∀ message : String, u ≠ message → u ∉ reported workspace.log ++ [message] := by
    intro message hm h
    rcases List.mem_append.1 h with h | h
    · exact hu h
    · exact hm (List.mem_singleton.1 h)
  cases hcmd : env.GetCommand parameters.command_name with
  | none =>
    rw [dispatch_unknown _ _ _ _ hcmd, returned_snd]
    refine ⟨log_grows_Fail _ _ _ _ hlook, ?_⟩
    rw [reported_Fail, hrep]
    exact hout _ h1
  | some task =>
    have hp1 := log_grows_parseCommand task args _ _ hlook
    cases hready : (parseCommand task args
        (workspace.perform (MainEvent.GetCommand parameters.command_name))).1.ready_to_run_ with
    | false =>
      cases hname : parameters.command_name with
      | some verb =>
        rw [← hname, dispatch_not_ready _ _ _ _ _ verb hcmd hname hready, returned_snd]
        refine ⟨log_grows_Fail _ _ _ _ hp1, ?_⟩
        rw [reported_Fail, reported_parseCommand, hrep]
        exact hout _ (h2 verb hname)
      | none =>
        rw [← hname, dispatch_killed _ _ _ _ _ hcmd hname hready]
        refine ⟨hp1, ?_⟩
        rw [reported_parseCommand, hrep]
        exact hu
    | true =>
      have hp2 := hvalidmem _ _ hp1
      cases hvalid : env.Valid (parseCommand task args
          (workspace.perform (MainEvent.GetCommand parameters.command_name))).2.log with
      | false =>
        rw [dispatch_invalid _ _ _ _ _ hcmd hready hvalid, returned_snd]
        refine ⟨log_grows_Fail _ _ _ _ hp2, ?_⟩
        rw [reported_Fail, hvalidrep, reported_parseCommand, hrep]
        exact hout _ h3
      | true =>
        rw [dispatch_runs _ _ _ _ _ hcmd hready hvalid, returned_snd]
        refine ⟨log_grows_runCommand _ _ _ hp2, ?_⟩
        rw [reported_runCommand, hvalidrep, reported_parseCommand, hrep]
        exact hu

/-- Whatever the dispatcher and the command do, after the flag `-root=/tmp` without a
verb `main` looks a command up under a null name and never reports the usage text. -/
theorem flags_without_verb_any_dispatcher (env : MainEnv) :
    MainEvent.GetCommand none ∈ (main env "installer" ["-root=/tmp"]).2.log ∧
    GetStringUsage "installer" ∉ reported (main env "installer" ["-root=/tmp"]).2.log := by
  have hparse : (ParseParameters "installer" ["-root=/tmp"]).1 = true := by decide
  have hnull : (ParseParameters "installer" ["-root=/tmp"]).2.1.command_name = none := by
    decide
  have hnover : (ParseParameters "installer" ["-root=/tmp"]).2.1.version = none := by decide
  have hversion : versionMismatch env (ParseParameters "installer" ["-root=/tmp"]).2.1 =
      false := by
    simp only [versionMismatch, hnover]
  have h1 : GetStringUsage "installer" ≠ "Unknown command" := by decide
  have h2 : ∀ verb, (ParseParameters "installer" ["-root=/tmp"]).2.1.command_name = some verb →
      GetStringUsage "installer" ≠ "Command " ++ verb ++ ": wrong parameters" := by
    intro verb h
    rw [hnull] at h
    exact absurd h (by simp)
  have h3 : GetStringUsage "installer" ≠ "Bad workspace" := by decide
  have hu : GetStringUsage "installer" ∉
      reported (applyEnvironment (ParseParameters "installer" ["-root=/tmp"]).2.1 {}).log := by
    decide
  have := dispatch_reports env (ParseParameters "installer" ["-root=/tmp"]).2.1
    (("installer" :: ["-root=/tmp"]).drop (ParseParameters "installer" ["-root=/tmp"]).2.1.consumed)
    (applyEnvironment (ParseParameters "installer" ["-root=/tmp"]).2.1 {})
    (GetStringUsage "installer") h1 h2 h3 hu
  rw [hnull] at this
  rw [main_dispatches env "installer" ["-root=/tmp"] (by simp) hparse hversion]
  exact this

/-- C12, where the code departs from it: with the binary name followed by the
recognised flag `-root=/tmp` and no verb, `ParseParameters` returns true with a null
command name and `main` hands that null name to the dispatcher; with a dispatcher that
yields no command for it the run fails with `ERROR_CMD` and the message
`Unknown command`: the usage text is not emitted and the status is not
`ERROR_PARAMETER`. Whatever the dispatcher answers, the lookup under the null name
happens and the usage text is not reported. -/
theorem main_flags_without_verb :
    (ParseParameters "installer" ["-root=/tmp"]).1 = true ∧
    (ParseParameters "installer" ["-root=/tmp"]).2.1.command_name = none ∧
    MainEvent.GetCommand none ∈
      (main ⟨"1", fun _ => none, fun _ => true⟩ "installer" ["-root=/tmp"]).2.log ∧
    (main ⟨"1", fun _ => none, fun _ => true⟩ "installer" ["-root=/tmp"]).2.response.status =
      some InstallerStatus.ERROR_CMD ∧
    reported (main ⟨"1", fun _ => none, fun _ => true⟩ "installer" ["-root=/tmp"]).2.log =
      ["Unknown command"] ∧
    GetStringUsage "installer" ∉
      reported (main ⟨"1", fun _ => none, fun _ => true⟩ "installer" ["-root=/tmp"]).2.log ∧
    ∀ env : MainEnv,
      MainEvent.GetCommand none ∈ (main env "installer" ["-root=/tmp"]).2.log ∧
      GetStringUsage "installer" ∉ reported (main env "installer" ["-root=/tmp"]).2.log := by
  refine ⟨by decide, by decide, by decide, by decide, by decide, by decide, ?_⟩
  exact flags_without_verb_any_dispatcher

end deploy
